import Mathlib

/-!
Verification development for the content-graph construction and structural
analysis engine of the `google-ai-mode-optimization-tool` repository
(`src/utils.py`, `src/graph_builder.py`, `src/content_analyzer.py`).

Strings are modelled as `List Char`.  Python floats appearing in the depth
score are modelled as rationals; on the decimal constants the code adds
(0.1, 0.2, 0.3, with the additions performed in the source's order) the
IEEE-double results coincide with the exact decimal values, so `ℚ` is a
faithful model of every comparison and equality the claims mention.
The TF-IDF vectorizer and cosine-similarity matrix of
`identify_semantic_clusters` are modelled as an abstract parameter
(a function `List Str → Except Unit (Nat → Nat → ℚ)` standing for
`fit_transform` followed by `cosine_similarity`, `.error` standing for a
raised vectorization exception), and the `extract_cluster_theme` call as an
abstract `Nat → List Str`; the clustering loop itself (lines 116-141 of
`content_analyzer.py`) is embedded faithfully.
-/

set_option maxRecDepth 4000

abbrev Str := List Char

/-- ASCII fragment of Python's regex `\s` / `str.split()` whitespace. -/
def isWs (c : Char) : Bool :=
  c = ' ' || c = '\t' || c = '\n' || c = '\r' || c = '\x0b' || c = '\x0c'

/-- One-pass state machine for `re.sub('<.*?>', '', html)` (non-greedy tag
removal, `.` not matching newline).  The first argument is `none` outside a
candidate tag and `some buf` inside one, `buf` holding (reversed) the
characters consumed since the opening `<`.  A `>` closes and drops the
buffered candidate (the leftmost `<` matches through the first `>`); a
newline aborts every `<` buffered so far (none of them can reach a `>`
without crossing the newline), so the buffer is emitted literally. -/
def stripTagsSM : Option Str → Str → Str
  | none, [] => []
  | some buf, [] => buf.reverse
  | none, c :: cs =>
    if c = '<' then stripTagsSM (some ['<']) cs else c :: stripTagsSM none cs
  | some buf, c :: cs =>
    if c = '>' then stripTagsSM none cs
    else if c = '\n' then buf.reverse ++ '\n' :: stripTagsSM none cs
    else stripTagsSM (some (c :: buf)) cs

def stripTags (s : Str) : Str := stripTagsSM none s

/-- `re.sub(r'\s+', ' ', text)`: collapse every whitespace run to one space.
The Boolean records whether the previous character was whitespace. -/
def collapseWsAux : Bool → Str → Str
  | _, [] => []
  | prevWs, c :: cs =>
    if isWs c then
      (if prevWs then collapseWsAux true cs else ' ' :: collapseWsAux true cs)
    else c :: collapseWsAux false cs

def collapseWs (s : Str) : Str := collapseWsAux false s

/-- Python `str.strip()` (whitespace from both ends). -/
def stripEnds (s : Str) : Str :=
  ((s.dropWhile isWs).reverse.dropWhile isWs).reverse

/-- `clean_html` from `src/utils.py`: strip `<.*?>` tags, collapse whitespace,
strip the ends. -/
def clean_html (s : Str) : Str := stripEnds (collapseWs (stripTags s))

/-- `len(text.split())`: number of maximal non-whitespace runs.  The Boolean
records whether we are inside a word. -/
def wordCountAux : Bool → Str → Nat
  | _, [] => 0
  | inW, c :: cs =>
    if isWs c then wordCountAux false cs
    else if inW then wordCountAux true cs else 1 + wordCountAux true cs

def wordCount (s : Str) : Nat := wordCountAux false s

/-- Leftmost occurrence of `pat`: returns the remainder of the string after
the occurrence (Python `str.count` scans left to right, skipping the length
of the pattern after each hit). -/
def findOcc (pat : Str) : Str → Option Str
  | [] => if pat.isEmpty then some [] else none
  | s@(_ :: cs) =>
    if pat.isPrefixOf s then some (s.drop pat.length) else findOcc pat cs

/-- `str.count`, fuel-driven over the number of matches (each nonempty-pattern
match consumes at least one character, so `s.length + 1` matches never occur
and the fuel is never exhausted on the code's patterns). -/
def countSubF (pat : Str) : Nat → Nat → Str → Nat
  | 0, n, _ => n
  | fuel + 1, n, s =>
    match findOcc pat s with
    | none => n
    | some rest => countSubF pat fuel (n + 1) rest

def countSub (pat s : Str) : Nat := countSubF pat (s.length + 1) 0 s

/-- Python `pat in s` substring test. -/
def containsSub (pat : Str) : Str → Bool
  | [] => pat.isEmpty
  | s@(_ :: cs) => pat.isPrefixOf s || containsSub pat cs

/-- Prefix matcher for the link regex `rf'{site_url}/[^"\'>\s]+'`: the
interpolated `site_url` is matched character by character, with `.`
behaving as the regex wildcard (the only regex metacharacter occurring in
the site URLs at hand).  Returns the consumed input characters and the
remainder. -/
def matchPrefixDots : Str → Str → Option (Str × Str)
  | [], s => some ([], s)
  | _ :: _, [] => none
  | p :: ps, c :: cs =>
    if p = '.' || p = c then
      (matchPrefixDots ps cs).map (fun pr => (c :: pr.1, pr.2))
    else none

/-- Character class `[^"\'>\s]` of the link regex. -/
def linkChar (c : Char) : Bool :=
  !(c = '"' || c = '\'' || c = '>' || isWs c)

/-- Attempt the link regex at the head of `s`: literal-with-dots `sitePat`
(the site URL plus `'/'`) followed by a greedy nonempty `[^"\'>\s]+` run.
Returns the matched text and the remainder after the match. -/
def tryMatchLink (sitePat : Str) (s : Str) : Option (Str × Str) :=
  match matchPrefixDots sitePat s with
  | none => none
  | some (con, rest) =>
    match rest.takeWhile linkChar with
    | [] => none
    | run => some (con ++ run, rest.drop run.length)

/-- Leftmost match of the link regex anywhere in `s` (the regex engine tries
each position left to right). -/
def scanLink (sitePat : Str) : Str → Option (Str × Str)
  | [] => none
  | s@(_ :: cs) =>
    match tryMatchLink sitePat s with
    | some r => some r
    | none => scanLink sitePat cs

/-- `re.findall`: repeatedly take the leftmost match and continue after it.
Fuel bounds the number of matches (each consumes at least one character). -/
def findLinksF (sitePat : Str) : Nat → Str → List Str
  | 0, _ => []
  | fuel + 1, s =>
    match scanLink sitePat s with
    | none => []
    | some (l, rest) => l :: findLinksF sitePat fuel rest

/-- All internal-link matches of `re.findall(rf'{site_url}/[^"\'>\s]+', content)`. -/
def findLinks (siteUrl content : Str) : List Str :=
  findLinksF (siteUrl ++ ['/']) (content.length + 1) content

/-- `site_url.rstrip('/')` from `GraphBuilder.__init__`. -/
def rstripSlash (s : Str) : Str :=
  (s.reverse.dropWhile (fun c => c = '/')).reverse

/-- ASCII model of `str.lower()` as used for taxonomy-name matching. -/
def toLowerStr (s : Str) : Str := s.map Char.toLower

/-- `url.split('/')[-1]`: the segment after the last `/` (the whole string if
there is none). -/
def lastSeg (s : Str) : Str :=
  (s.reverse.takeWhile (fun c => c ≠ '/')).reverse

/-- `.replace('-', ' ')`. -/
def dashToSpace (s : Str) : Str :=
  s.map (fun c => if c = '-' then ' ' else c)

/-- ASCII model of Python `str.title()`: a letter is upper-cased when the
previous character is not a letter, lower-cased otherwise. -/
def titleAux : Bool → Str → Str
  | _, [] => []
  | prev, c :: cs =>
    if c.isAlpha then
      (if prev then c.toLower else c.toUpper) :: titleAux true cs
    else c :: titleAux false cs

def titleCase (s : Str) : Str := titleAux false s

/-! ## Data model

Node identifiers mix Python ints (REST-API post ids, used raw as node ids)
and strings (`"page_…"`, `"cat_…"`, `"tag_…"`).  `NId` is their disjoint
union.  Taxonomy references attached to a post are ints (REST dialect) or
strings (sitemap dialect). -/

abbrev NId := Sum Int Str

abbrev CatRef := Sum Int Str

/-- A `title` / `content` / `excerpt` field value: either a REST-style dict
(whose `rendered` key may be absent) or a plain string.  An absent field is
`Option.none` at the use site and behaves like an empty dict. -/
inductive RVal where
  | rdict (rendered : Option Str)
  | rstr (s : Str)
deriving DecidableEq

/-- The text the builder extracts from an optional `RVal` field: a missing
field defaults to `{}`, whose `.get('rendered', '')` is `''`; a dict yields
its `rendered` (default `''`); a plain string yields itself. -/
def RVal.text : Option RVal → Str
  | none => []
  | some (.rdict r) => r.getD []
  | some (.rstr s) => s

/-- A post item of dict shape, with the fields `build_content_graph` reads.
`id?` is `none` when the required `'id'` key is missing (Python `post['id']`
then raises `KeyError`, which the builder catches and skips). -/
structure PostDict where
  id? : Option Int
  title : Option RVal
  content : Option RVal
  excerpt : Option RVal
  type_ : Option Str
  link : Option Str
  categories : Option (List CatRef)
  tags : Option (List CatRef)
  date : Option Str
deriving DecidableEq

/-- A page item of dict shape. -/
structure PageDict where
  id? : Option Int
  title : Option RVal
  content : Option RVal
  type_ : Option Str
  link : Option Str
  parent : Option Int
  date : Option Str
deriving DecidableEq

/-- A post/page list entry: a dict, or an item that is not a dict at all (on
which `post.get(...)` raises `AttributeError`, an exception the builder's
`except (KeyError, TypeError)` clause does not catch). -/
inductive Item where
  | dict (p : PostDict)
  | nondict
deriving DecidableEq

inductive PageItem where
  | dict (p : PageDict)
  | nondict
deriving DecidableEq

/-- A category/tag list entry: REST dialect (has `'id'`), sitemap dialect
(no `'id'` but `'url'`), a dict with neither key (silently does nothing), or
a non-dict (the `isinstance` guard skips it). -/
inductive TaxItem where
  | withId (id : Int) (name : Option Str) (slug : Option Str)
  | withUrl (url : Str)
  | neither
  | nondict
deriving DecidableEq

/-- The `RawContentBundle`: the five fields of the `content` dict the
builder reads (`media` is carried but never read by the core). -/
structure Bundle where
  posts : List Item
  pages : List PageItem
  categories : List TaxItem
  tags : List TaxItem
  media : List Item
deriving DecidableEq

/-- Attribute dict of a graph node; `none` models an absent key. -/
structure Attrs where
  type_ : Option Str := none
  title : Option Str := none
  url : Option Str := none
  content : Option Str := none
  excerpt : Option Str := none
  categories : Option (List CatRef) := none
  tags : Option (List CatRef) := none
  date : Option Str := none
  parent : Option Int := none
  name : Option Str := none
  slug : Option Str := none
deriving DecidableEq

/-- `networkx.DiGraph`: nodes in insertion order with attribute dicts, and
at most one edge per (source, target), carrying its `type` attribute. -/
structure Graph where
  nodes : List (NId × Attrs)
  edges : List (NId × NId × Str)
deriving DecidableEq

def Graph.nodeIds (g : Graph) : List NId := g.nodes.map (·.1)

def Graph.hasNode (g : Graph) (i : NId) : Bool := g.nodes.any (fun p => p.1 = i)

def Graph.attrsOf (g : Graph) (i : NId) : Option Attrs :=
  (g.nodes.find? (fun p => p.1 = i)).map (·.2)

/-- `add_node` attribute update: keys present in the new dict overwrite,
the others survive. -/
def mergeAttrs (old new : Attrs) : Attrs where
  type_ := new.type_ <|> old.type_
  title := new.title <|> old.title
  url := new.url <|> old.url
  content := new.content <|> old.content
  excerpt := new.excerpt <|> old.excerpt
  categories := new.categories <|> old.categories
  tags := new.tags <|> old.tags
  date := new.date <|> old.date
  parent := new.parent <|> old.parent
  name := new.name <|> old.name
  slug := new.slug <|> old.slug

/-- `DiGraph.add_node`: update attributes in place when the id exists,
append a fresh node otherwise. -/
def Graph.addNode (g : Graph) (i : NId) (a : Attrs) : Graph :=
  if g.hasNode i then
    { g with nodes := g.nodes.map (fun p => if p.1 = i then (p.1, mergeAttrs p.2 a) else p) }
  else { g with nodes := g.nodes ++ [(i, a)] }

/-- `add_edge`'s implicit node creation: a missing endpoint is added with an
empty attribute dict. -/
def Graph.withNode (g : Graph) (w : NId) : Graph :=
  if g.hasNode w then g else { g with nodes := g.nodes ++ [(w, {})] }

/-- `DiGraph.add_edge`: create absent endpoints (with empty attribute
dicts), then set the edge's `type`, replacing the attribute of an existing
(source, target) edge. -/
def Graph.addEdge (g : Graph) (u v : NId) (ty : Str) : Graph :=
  if ((g.withNode u).withNode v).edges.any (fun e => e.1 = u && e.2.1 = v) then
    Graph.mk ((g.withNode u).withNode v).nodes
      (((g.withNode u).withNode v).edges.map
        (fun e => if e.1 = u ∧ e.2.1 = v then (u, v, ty) else e))
  else
    Graph.mk ((g.withNode u).withNode v).nodes
      (((g.withNode u).withNode v).edges ++ [(u, v, ty)])

def Graph.outDegree (g : Graph) (i : NId) : Nat :=
  (g.edges.filter (fun e => e.1 = i)).length

def Graph.inDegree (g : Graph) (i : NId) : Nat :=
  (g.edges.filter (fun e => e.2.1 = i)).length

/-! ## Graph builder (`src/graph_builder.py`) -/

def postStr : Str := "post".data

def pageStr : Str := "page".data

/-- Node attributes stored for a post item (lines 42-52). -/
def postAttrs (p : PostDict) : Attrs where
  type_ := some (p.type_.getD postStr)
  title := some (RVal.text p.title)
  url := some (p.link.getD [])
  content := some (clean_html (RVal.text p.content))
  excerpt := some (clean_html (RVal.text p.excerpt))
  categories := some (p.categories.getD [])
  tags := some (p.tags.getD [])
  date := some (p.date.getD [])

/-- Node attributes stored for a page item (lines 72-80). -/
def pageAttrs (p : PageDict) : Attrs where
  type_ := some (p.type_.getD pageStr)
  title := some (RVal.text p.title)
  url := some (p.link.getD [])
  content := some (clean_html (RVal.text p.content))
  parent := some (p.parent.getD 0)
  date := some (p.date.getD [])

/-- Ingest the post list: a dict without `'id'` raises `KeyError` at
`post['id']`, is caught, logged and skipped; a non-dict item raises
`AttributeError` at `post.get('title', {})`, which the
`except (KeyError, TypeError)` clause does not catch, aborting the build. -/
def addPostNodes : Graph → List Item → Except Unit Graph
  | g, [] => .ok g
  | _, .nondict :: _ => .error ()
  | g, .dict p :: rest =>
    match p.id? with
    | none => addPostNodes g rest
    | some i => addPostNodes (g.addNode (.inl i) (postAttrs p)) rest

/-- Ingest the page list; the node id is `f"page_{page['id']}"`. -/
def addPageNodes : Graph → List PageItem → Except Unit Graph
  | g, [] => .ok g
  | _, .nondict :: _ => .error ()
  | g, .dict p :: rest =>
    match p.id? with
    | none => addPageNodes g rest
    | some i =>
      addPageNodes (g.addNode (.inr ("page_".data ++ (toString i).data)) (pageAttrs p)) rest

/-- `hash(url) % (10**9)` of the sitemap category branch (line 133); the
Python `hash` valid within one run is the parameter `h`. -/
def synthCatNum (h : Str → Int) (url : Str) : Int := (h url).emod (10 ^ 9)

/-- `hash(url) % (10**9)` of the sitemap tag branch (line 163). -/
def synthTagNum (h : Str → Int) (url : Str) : Int := (h url).emod (10 ^ 9)

/-- Node id `f"cat_{cat_id}"` synthesized for a sitemap category URL. -/
def catNodeIdOfUrl (h : Str → Int) (url : Str) : NId :=
  .inr ("cat_".data ++ (toString (synthCatNum h url)).data)

/-- Node id `f"tag_{tag_id}"` synthesized for a sitemap tag URL. -/
def tagNodeIdOfUrl (h : Str → Int) (url : Str) : NId :=
  .inr ("tag_".data ++ (toString (synthTagNum h url)).data)

/-- Category-node creation (lines 115-142): REST items get
`f"cat_{cat['id']}"`, sitemap items a deterministic synthesized id, with
name/slug derived from the URL's last segment; items of other shapes do
nothing.  (The guard `if content.get('categories'):` only short-circuits the
empty list, which the fold does anyway.) -/
def addCatNodes (h : Str → Int) : Graph → List TaxItem → Graph
  | g, [] => g
  | g, .withId i name slug :: rest =>
    addCatNodes h
      (g.addNode (.inr ("cat_".data ++ (toString i).data))
        { type_ := some "category".data, name := some (name.getD []),
          slug := some (slug.getD []) }) rest
  | g, .withUrl url :: rest =>
    addCatNodes h
      (g.addNode (catNodeIdOfUrl h url)
        { type_ := some "category".data,
          name := some (titleCase (dashToSpace (lastSeg url))),
          slug := some (lastSeg url), url := some url }) rest
  | g, .neither :: rest => addCatNodes h g rest
  | g, .nondict :: rest => addCatNodes h g rest

/-- Tag-node creation (lines 144-172), mirroring the category branch. -/
def addTagNodes (h : Str → Int) : Graph → List TaxItem → Graph
  | g, [] => g
  | g, .withId i name slug :: rest =>
    addTagNodes h
      (g.addNode (.inr ("tag_".data ++ (toString i).data))
        { type_ := some "tag".data, name := some (name.getD []),
          slug := some (slug.getD []) }) rest
  | g, .withUrl url :: rest =>
    addTagNodes h
      (g.addNode (tagNodeIdOfUrl h url)
        { type_ := some "tag".data,
          name := some (titleCase (dashToSpace (lastSeg url))),
          slug := some (lastSeg url), url := some url }) rest
  | g, .neither :: rest => addTagNodes h g rest
  | g, .nondict :: rest => addTagNodes h g rest

/-- Resolve one category reference of a post (lines 186-199): an int gives
`f"cat_{cat_item}"` directly; a string is matched case-insensitively against
the `name` of each node of type `category`, in node order. -/
def resolveCatRef (g : Graph) (r : CatRef) : Option NId :=
  match r with
  | .inl i => some (.inr ("cat_".data ++ (toString i).data))
  | .inr s =>
    (g.nodes.find? (fun p =>
      p.2.type_ = some "category".data ∧
        toLowerStr (p.2.name.getD []) = toLowerStr s)).map (·.1)

/-- Resolve one tag reference (lines 209-220). -/
def resolveTagRef (g : Graph) (r : CatRef) : Option NId :=
  match r with
  | .inl i => some (.inr ("tag_".data ++ (toString i).data))
  | .inr s =>
    (g.nodes.find? (fun p =>
      p.2.type_ = some "tag".data ∧
        toLowerStr (p.2.name.getD []) = toLowerStr s)).map (·.1)

/-- Add the `categorized_as` edges of one post node: each resolved
reference whose target node exists yields an edge (lines 200-201). -/
def addCatEdges (nid : NId) : Graph → List CatRef → Graph
  | g, [] => g
  | g, r :: rest =>
    match resolveCatRef g r with
    | some tgt =>
      addCatEdges nid (if g.hasNode tgt then g.addEdge nid tgt "categorized_as".data else g) rest
    | none => addCatEdges nid g rest

/-- Add the `tagged_as` edges of one post node (lines 222-223). -/
def addTagEdges (nid : NId) : Graph → List CatRef → Graph
  | g, [] => g
  | g, r :: rest =>
    match resolveTagRef g r with
    | some tgt =>
      addTagEdges nid (if g.hasNode tgt then g.addEdge nid tgt "tagged_as".data else g) rest
    | none => addTagEdges nid g rest

/-- Walk the node snapshot, connecting every node of type `post` to its
categories and tags (lines 176-225). -/
def taxEdgeLoop : Graph → List (NId × Attrs) → Graph
  | g, [] => g
  | g, (nid, a) :: rest =>
    if a.type_ = some postStr then
      taxEdgeLoop (addTagEdges nid (addCatEdges nid g (a.categories.getD [])) (a.tags.getD [])) rest
    else taxEdgeLoop g rest

/-- `build_taxonomy_edges` (lines 112-228): create category and tag nodes,
then connect posts to them. -/
def build_taxonomy_edges (h : Str → Int) (g : Graph) (cats tags : List TaxItem) : Graph :=
  let g1 := addCatNodes h g cats
  let g2 := addTagNodes h g1 tags
  taxEdgeLoop g2 g2.nodes

/-- First node of the snapshot whose `url` attribute equals the link
(lines 107-110; `.get('url')` of a node without a `url` key is `None`,
never equal to the string). -/
def firstUrlMatch (nodes : List (NId × Attrs)) (link : Str) : Option NId :=
  (nodes.find? (fun p => p.2.url = some link)).map (·.1)

/-- Add an `internal_link` edge for each extracted link whose URL matches a
node of the snapshot (first match wins). -/
def linkEdgesFor (nid : NId) (snapshot : List (NId × Attrs)) : Graph → List Str → Graph
  | g, [] => g
  | g, l :: rest =>
    match firstUrlMatch snapshot l with
    | some tgt => linkEdgesFor nid snapshot (g.addEdge nid tgt "internal_link".data) rest
    | none => linkEdgesFor nid snapshot g rest

/-- Walk the node snapshot, extracting internal links from each node that
has a `content` attribute (lines 94-110). -/
def linkEdgeLoop (site : Str) (snapshot : List (NId × Attrs)) : Graph → List (NId × Attrs) → Graph
  | g, [] => g
  | g, (nid, a) :: rest =>
    match a.content with
    | some c => linkEdgeLoop site snapshot (linkEdgesFor nid snapshot g (findLinks site c)) rest
    | none => linkEdgeLoop site snapshot g rest

/-- `build_internal_link_edges` (lines 94-110).  During this phase the node
set never changes (every edge endpoint is an existing node), so the single
snapshot taken here coincides with every `list(self.content_graph.nodes(...))`
the Python code re-takes. -/
def build_internal_link_edges (site : Str) (g : Graph) : Graph :=
  linkEdgeLoop site g.nodes g g.nodes

/-- `build_content_graph` over the bundle's four read fields: ingest posts
and pages, then build link edges, then taxonomy edges.  The `Except` error
is an uncaught per-item exception (non-dict post or page). -/
def buildFrom (site : Str) (h : Str → Int) (posts : List Item) (pages : List PageItem)
    (cats tags : List TaxItem) : Except Unit Graph :=
  match addPostNodes ⟨[], []⟩ posts with
  | .error e => .error e
  | .ok g1 =>
    match addPageNodes g1 pages with
    | .error e => .error e
    | .ok g2 => .ok (build_taxonomy_edges h (build_internal_link_edges (rstripSlash site) g2) cats tags)

/-- `GraphBuilder(site_url).build_content_graph(content)`; `h` is the
run's Python string hash. -/
def build_content_graph (site : Str) (h : Str → Int) (b : Bundle) : Except Unit Graph :=
  buildFrom site h b.posts b.pages b.categories b.tags

/-! ## Structural analyzer (`src/content_analyzer.py`) -/

/-- The `if/elif/elif` word-count tiers of `calculate_content_depth`
(lines 61-67). -/
def wordCountBonus (wc : Nat) : ℚ :=
  if wc > 2000 then 0.3 else if wc > 1000 then 0.2 else if wc > 500 then 0.1 else 0

/-- `calculate_content_depth` (lines 56-91): additive bonuses, capped at 1.0.
The accumulation order follows the source's `score +=` statements. -/
def calculate_content_depth (d : Attrs) : ℚ :=
  let content := d.content.getD []
  let word_count := wordCount content
  let s1 : ℚ := wordCountBonus word_count
  let h2_count := countSub "<h2".data content + countSub "## ".data content
  let h3_count := countSub "<h3".data content + countSub "### ".data content
  let s2 := s1 + (if h2_count > 3 then 0.2 else 0)
  let s3 := s2 + (if h3_count > 5 then 0.1 else 0)
  let s4 := s3 +
    (if containsSub "<img".data content || containsSub "[gallery".data content then 0.1 else 0)
  let s5 := s4 +
    (if containsSub "<ul".data content || containsSub "<ol".data content ||
        containsSub "- ".data content then 0.1 else 0)
  let s6 := s5 +
    (if containsSub "itemtype".data content || containsSub "@type".data content then 0.2 else 0)
  min s6 1

/-- One record of the `content_scores` table (lines 32-39). -/
structure ScoreEntry where
  title : Str
  url : Str
  depth_score : ℚ
  word_count : Nat
  internal_links : Nat
  backlinks : Nat
deriving DecidableEq

def scoreEntryOf (g : Graph) (nid : NId) (a : Attrs) : ScoreEntry where
  title := a.title.getD []
  url := a.url.getD []
  depth_score := calculate_content_depth a
  word_count := wordCount (a.content.getD [])
  internal_links := g.outDegree nid
  backlinks := g.inDegree nid

/-- `content_scores`, keyed by node id in node order (lines 29-39). -/
def contentScores (g : Graph) : List (NId × ScoreEntry) :=
  g.nodes.filterMap (fun p =>
    if p.2.type_ = some postStr ∨ p.2.type_ = some pageStr
    then some (p.1, scoreEntryOf g p.1 p.2) else none)

/-! ## Semantic clusterer (`content_analyzer.py` lines 93-154) -/

/-- Stand-in for `TfidfVectorizer.fit_transform` + `cosine_similarity`:
given the corpus, either a similarity matrix (indexed by corpus position)
or a raised exception. -/
abbrev Vectorizer := List Str → Except Unit (Nat → Nat → ℚ)

/-- Stand-in for `extract_cluster_theme` applied to the seed's index. -/
abbrev Theme := Nat → List Str

structure Cluster where
  center : NId
  members : List (NId × ℚ)
  theme : List Str
deriving DecidableEq

def dfltNId : NId := .inl 0

/-- Python truthiness of `data.get('content')`: present and nonempty. -/
def truthyContent (a : Attrs) : Bool :=
  match a.content with
  | some (_ :: _) => true
  | _ => false

/-- Content nodes carrying truthy (nonempty) text, in node order
(lines 101-104). -/
def clusterTexts (g : Graph) : List (NId × Str) :=
  g.nodes.filterMap (fun p =>
    if (p.2.type_ = some postStr || p.2.type_ = some pageStr) && truthyContent p.2
    then some (p.1, p.2.content.getD []) else none)

/-- `x in visited` over the model's visited list. -/
def nidMem (a : NId) (l : List NId) : Bool := l.any (fun b => b = a)

/-- One iteration of the greedy clustering loop (lines 120-139): skip a
visited seed; otherwise gather every index whose similarity to the seed
exceeds 0.3 as a member, mark the members visited, and keep the cluster
when it has more than one member. -/
def clusterStep (ids : List NId) (sim : Nat → Nat → ℚ) (θ : Theme)
    (st : List NId × List Cluster) (i : Nat) : List NId × List Cluster :=
  if nidMem (ids.getD i dfltNId) st.1 then st
  else
    let members := (List.range ids.length).filterMap
      (fun j => if sim i j > 0.3 then some (ids.getD j dfltNId, sim i j) else none)
    (st.1 ++ members.map (·.1),
     if members.length > 1 then st.2 ++ [⟨ids.getD i dfltNId, members, θ i⟩] else st.2)

/-- `identify_semantic_clusters` (lines 93-145): empty corpus gives `[]`;
a vectorization failure is caught and gives `[]`; otherwise the greedy
single-pass partition runs over the similarity matrix. -/
def identify_semantic_clusters (vec : Vectorizer) (θ : Theme) (g : Graph) : List Cluster :=
  let pairs := clusterTexts g
  if pairs.isEmpty then []
  else
    match vec (pairs.map (·.2)) with
    | .error _ => []
    | .ok sim =>
      ((List.range pairs.length).foldl (clusterStep (pairs.map (·.1)) sim θ) ([], [])).2

/-- The report of `analyze_content_depth` (lines 17-54). -/
structure DepthAnalysis where
  content_scores : List (NId × ScoreEntry)
  hub_potential : List ScoreEntry
  orphan_content : List ScoreEntry
  semantic_clusters : List Cluster

/-- `analyze_content_depth`: scores, hub candidates
(`internal_links > 5 and depth_score > 0.7`), orphans
(`backlinks == 0 and internal_links < 2`), clusters. -/
def analyze_content_depth (vec : Vectorizer) (θ : Theme) (g : Graph) : DepthAnalysis where
  content_scores := contentScores g
  hub_potential := (contentScores g).filterMap
    (fun p => if p.2.internal_links > 5 ∧ p.2.depth_score > 0.7 then some p.2 else none)
  orphan_content := (contentScores g).filterMap
    (fun p => if p.2.backlinks = 0 ∧ p.2.internal_links < 2 then some p.2 else none)
  semantic_clusters := identify_semantic_clusters vec θ g

/-! ## Well-formedness predicates used by the error-handling claims -/

/-- Every post item is a dict (no `AttributeError` source). -/
def postsDict (l : List Item) : Prop := ∀ it ∈ l, it ≠ Item.nondict

/-- Every page item is a dict. -/
def pagesDict (l : List PageItem) : Prop := ∀ it ∈ l, it ≠ PageItem.nondict

/-! ## Concrete scenario inputs

`wlist n` is the n-word filler body `"a a … a"` (single-character words,
single spaces, no trailing space) used to realize the word counts fixed by
the end-to-end scenario. -/

def wlist : Nat → Str
  | 0 => []
  | 1 => ['a']
  | n + 2 => 'a' :: ' ' :: wlist (n + 1)

def siteC1 : Str := "https://example.com".data

def urlA : Str := "https://example.com/posta".data

def urlB : Str := "https://example.com/postb".data

/-- Post A body: 199 filler words followed by B's exact URL — 200 words,
no markup. -/
def aBody : Str := wlist 199 ++ ' ' :: urlB

/-- Post B markup prelude: an `<img>` tag and four `<h2>` headings. -/
def bPre : Str := "<img src=q><h2>a</h2><h2>a</h2><h2>a</h2><h2>a</h2> ".data

/-- Post B body: the markup prelude followed by 2199 filler words; its
cleaned text has 2200 words (`aaaa` plus the fillers). -/
def bBody : Str := bPre ++ wlist 2199

/-- `clean_html bBody`: the four heading texts fuse into one word `aaaa`. -/
def bClean : Str := "aaaa ".data ++ wlist 2199

def hash0 : Str → Int := fun _ => 0

def vecFail : Vectorizer := fun _ => .error ()

def theme0 : Theme := fun _ => []

def postA : PostDict :=
  { id? := some 1, title := some (.rdict (some "A".data)), content := some (.rstr aBody),
    excerpt := none, type_ := none, link := some urlA,
    categories := some [.inl 1], tags := some [], date := none }

def postB : PostDict :=
  { id? := some 2, title := some (.rdict (some "B".data)), content := some (.rstr bBody),
    excerpt := none, type_ := none, link := some urlB,
    categories := some [.inl 1], tags := some [], date := none }

def catNews : TaxItem := .withId 1 (some "News".data) (some "news".data)

def bundleC1 : Bundle :=
  { posts := [.dict postA, .dict postB], pages := [], categories := [catNews],
    tags := [], media := [] }

/-- Attributes post A's node ends up with (its body is already clean). -/
def attrsA : Attrs :=
  { type_ := some postStr, title := some "A".data, url := some urlA,
    content := some aBody, excerpt := some [], categories := some [.inl 1],
    tags := some [], date := some [] }

/-- Attributes post B's node ends up with. -/
def attrsB : Attrs :=
  { type_ := some postStr, title := some "B".data, url := some urlB,
    content := some bClean, excerpt := some [], categories := some [.inl 1],
    tags := some [], date := some [] }

def attrsCat : Attrs :=
  { type_ := some "category".data, name := some "News".data, slug := some "news".data }

def cat1Id : NId := .inr "cat_1".data

/-- The graph the end-to-end scenario builds. -/
def gC1 : Graph :=
  { nodes := [(.inl 1, attrsA), (.inl 2, attrsB), (cat1Id, attrsCat)],
    edges := [(.inl 1, .inl 2, "internal_link".data),
              (.inl 1, cat1Id, "categorized_as".data),
              (.inl 2, cat1Id, "categorized_as".data)] }

/-! ## Clustering scenario (three posts, symmetric unit-diagonal similarity
matrix as cosine similarity always yields) -/

def gC2 : Graph :=
  { nodes := [(.inl 1, { type_ := some postStr, content := some ['x'] }),
              (.inl 2, { type_ := some postStr, content := some ['y'] }),
              (.inl 3, { type_ := some postStr, content := some ['z'] })],
    edges := [] }

def simC2 : Nat → Nat → ℚ := fun i j =>
  (([[1, 2/5, 1/5], [2/5, 1, 2/5], [1/5, 2/5, 1]].getD i []).getD j 0)

def vecC2 : Vectorizer := fun _ => .ok simC2

def clusterX : Cluster := ⟨.inl 1, [(.inl 1, 1), (.inl 2, 2/5)], []⟩

def clusterY : Cluster := ⟨.inl 3, [(.inl 2, 2/5), (.inl 3, 1)], []⟩

/-! ## Malformed-item and dangling-reference scenarios -/

def postSmall : PostDict := ⟨some 9, none, none, none, none, none, none, none, none⟩

def postNoId : PostDict := ⟨none, none, none, none, none, none, none, none, none⟩

def pageSmall : PageDict := ⟨some 3, none, none, none, none, none, none⟩

/-- A wrong-shape (non-dict) post followed by a well-formed one. -/
def bundleC3cex : Bundle := ⟨[.nondict, .dict postSmall], [], [], [], []⟩

/-- An id-less post, a well-formed post and a well-formed page. -/
def bundleC3w : Bundle := ⟨[.dict postNoId, .dict postSmall], [.dict pageSmall], [], [], []⟩

/-- A post referencing category 7 in a bundle with no categories. -/
def postC4 : PostDict := ⟨some 1, none, none, none, none, none, some [.inl 7], none, none⟩

def bundleC4w : Bundle := ⟨[.dict postC4], [], [], [], []⟩

def gC4w : Graph := ⟨[(.inl 1, postAttrs postC4)], []⟩

/-! ## Hub scenario: one post with six outgoing links and rich content -/

def hubPre : Str := "<img<ul itemtype <h2<h2<h2<h2 <h3<h3<h3<h3<h3<h3 ".data

/-- 505 words, four `<h2` markers, six `<h3` markers, `<img`, `<ul`,
`itemtype` — depth score 0.8. -/
def hubContent : Str := hubPre ++ wlist 501

def attrsHub : Attrs := { type_ := some postStr, content := some hubContent }

def gHub : Graph :=
  { nodes := [(.inl 1, attrsHub)],
    edges := [(.inl 1, .inl 2, "internal_link".data), (.inl 1, .inl 3, "internal_link".data),
              (.inl 1, .inl 4, "internal_link".data), (.inl 1, .inl 5, "internal_link".data),
              (.inl 1, .inl 6, "internal_link".data), (.inl 1, .inl 7, "internal_link".data)] }

def eHub : ScoreEntry := ⟨[], [], 4/5, 505, 6, 0⟩

/-! ## Degenerate clustering inputs -/

/-- A content node with empty text and a taxonomy node: no usable corpus. -/
def gNoText : Graph :=
  ⟨[(.inl 1, { type_ := some postStr, content := some [] }),
    (.inl 2, { type_ := some "category".data })], []⟩

/-- Exactly one document. -/
def g1doc : Graph := ⟨[(.inl 1, { type_ := some postStr, content := some ['x'] })], []⟩

def vecOne : Vectorizer := fun _ => .ok (fun _ _ => 1)

/-! ## Media noninterference inputs -/

def bundleM1 : Bundle := ⟨[.dict postSmall], [], [], [], []⟩

def bundleM2 : Bundle := ⟨[.dict postSmall], [], [], [], [.nondict]⟩

/-! ## Character-set facts -/

lemma isWs_a : isWs 'a' = false := by decide

lemma isWs_sp : isWs ' ' = true := by decide

/-! ## Scan lemmas on tag-free / whitespace-free / pattern-free strings -/

lemma stripTagsSM_no_lt (s : Str) (h : ∀ c ∈ s, c ≠ '<') : stripTagsSM none s = s := by
  induction s with
  | nil => rfl
  | cons c cs ih =>
    have hc : c ≠ '<' := h c (List.mem_cons_self c cs)
    simp only [stripTagsSM, if_neg hc]
    exact congrArg (c :: ·) (ih fun d hd => h d (List.mem_cons_of_mem c hd))

lemma collapseWsAux_no_ws (s : Str) (h : ∀ c ∈ s, isWs c = false) (b : Bool) :
    collapseWsAux b s = s := by
  induction s generalizing b with
  | nil => rfl
  | cons c cs ih =>
    have hc : isWs c = false := h c (List.mem_cons_self c cs)
    simp only [collapseWsAux, hc, Bool.false_eq_true, if_false]
    exact congrArg (c :: ·) (ih (fun d hd => h d (List.mem_cons_of_mem c hd)) false)

lemma stripEnds_id (s : Str) (c d : Char) (hh : s.head? = some c) (hc : isWs c = false)
    (hr : s.reverse.head? = some d) (hd : isWs d = false) : stripEnds s = s := by
  cases s with
  | nil => simp at hh
  | cons a t =>
    have hac : a = c := by simpa using hh
    have h1 : (a :: t).dropWhile isWs = a :: t := by
      rw [List.dropWhile_cons, hac, hc]
      simp
    unfold stripEnds
    rw [h1]
    cases hrev : (a :: t).reverse with
    | nil => simp at hrev
    | cons e u =>
      have hed : e = d := by rw [hrev] at hr; simpa using hr
      subst hed
      rw [List.dropWhile_cons, hd]
      simp only [Bool.false_eq_true, if_false]
      rw [← hrev, List.reverse_reverse]

lemma findOcc_none (p0 : Char) (ps s : Str) (h : ∀ c ∈ s, c ≠ p0) :
    findOcc (p0 :: ps) s = none := by
  induction s with
  | nil => rfl
  | cons c cs ih =>
    have hc : c ≠ p0 := h c (List.mem_cons_self c cs)
    have hpre : (p0 :: ps).isPrefixOf (c :: cs) = false := by
      simp only [List.isPrefixOf, Bool.and_eq_false_iff]
      exact Or.inl (by simpa [beq_iff_eq] using fun he => hc he.symm)
    simp only [findOcc, hpre, Bool.false_eq_true, if_false]
    exact ih fun d hd => h d (List.mem_cons_of_mem c hd)

lemma countSub_zero (pat s : Str) (h : findOcc pat s = none) : countSub pat s = 0 := by
  unfold countSub
  simp only [countSubF, h]

lemma containsSub_false (p0 : Char) (ps s : Str) (h : ∀ c ∈ s, c ≠ p0) :
    containsSub (p0 :: ps) s = false := by
  induction s with
  | nil => rfl
  | cons c cs ih =>
    have hc : c ≠ p0 := h c (List.mem_cons_self c cs)
    have hpre : (p0 :: ps).isPrefixOf (c :: cs) = false := by
      simp only [List.isPrefixOf, Bool.and_eq_false_iff]
      exact Or.inl (by simpa [beq_iff_eq] using fun he => hc he.symm)
    simp only [containsSub, hpre, Bool.false_or]
    exact ih fun d hd => h d (List.mem_cons_of_mem c hd)

lemma tryMatchLink_none (p0 : Char) (ps : Str) (c : Char) (cs : Str)
    (h1 : p0 ≠ '.') (h2 : p0 ≠ c) : tryMatchLink (p0 :: ps) (c :: cs) = none := by
  unfold tryMatchLink matchPrefixDots
  simp [h1, h2]

lemma scanLink_none (p0 : Char) (ps : Str) (h1 : p0 ≠ '.') (s : Str)
    (h : ∀ c ∈ s, c ≠ p0) : scanLink (p0 :: ps) s = none := by
  induction s with
  | nil => rfl
  | cons c cs ih =>
    have hc : c ≠ p0 := h c (List.mem_cons_self c cs)
    simp only [scanLink, tryMatchLink_none p0 ps c cs h1 (fun he => hc he.symm)]
    exact ih fun d hd => h d (List.mem_cons_of_mem c hd)

lemma findLinksF_of_none (sp s : Str) (h : scanLink sp s = none) (fuel : Nat) :
    findLinksF sp fuel s = [] := by
  cases fuel with
  | zero => rfl
  | succ f => simp only [findLinksF, h]

/-! ## Facts about the filler text `wlist` -/

lemma wlist_succ_succ (n : Nat) : wlist (n + 2) = 'a' :: ' ' :: wlist (n + 1) := by
  simp [wlist]

lemma wlist_chars (n : Nat) : ∀ c ∈ wlist n, c = 'a' ∨ c = ' ' := by
  induction n with
  | zero => intro c hc; simp [wlist] at hc
  | succ m ih =>
    cases m with
    | zero => intro c hc; simp [wlist] at hc; exact Or.inl hc
    | succ k =>
      intro c hc
      rw [wlist_succ_succ] at hc
      rcases List.mem_cons.mp hc with h | hc2
      · exact Or.inl h
      rcases List.mem_cons.mp hc2 with h | h3
      · exact Or.inr h
      · exact ih c h3

lemma wlist_head (n : Nat) : (wlist (n + 1)).head? = some 'a' := by
  cases n with
  | zero => rfl
  | succ k => rw [wlist_succ_succ]; rfl

lemma wlist_rev_head (n : Nat) : (wlist (n + 1)).reverse.head? = some 'a' := by
  induction n with
  | zero => rfl
  | succ k ih =>
    rw [wlist_succ_succ]
    cases hrev : (wlist (k + 1)).reverse with
    | nil => rw [hrev] at ih; simp at ih
    | cons e u =>
      have he : e = 'a' := by rw [hrev] at ih; simpa using ih
      simp [hrev, he]

lemma wc_wlist (n : Nat) : wordCountAux false (wlist n) = n := by
  induction n with
  | zero => rfl
  | succ m ih =>
    cases m with
    | zero => rfl
    | succ k =>
      rw [wlist_succ_succ]
      simp only [wordCountAux, isWs_a, isWs_sp, Bool.false_eq_true, if_false, if_true]
      rw [ih]
      omega

lemma wc_wlist_app (n : Nat) (t : Str) :
    wordCountAux false (wlist (n + 1) ++ ' ' :: t) = (n + 1) + wordCountAux false t := by
  induction n with
  | zero =>
    show wordCountAux false ('a' :: ' ' :: t) = 1 + wordCountAux false t
    simp [wordCountAux, isWs_a, isWs_sp]
  | succ k ih =>
    rw [wlist_succ_succ]
    show wordCountAux false ('a' :: ' ' :: (wlist (k + 1) ++ ' ' :: t)) = _
    simp only [wordCountAux, isWs_a, isWs_sp, Bool.false_eq_true, if_false, if_true]
    rw [ih]
    omega

lemma cw_wlist (n : Nat) (b : Bool) : collapseWsAux b (wlist n) = wlist n := by
  induction n generalizing b with
  | zero => rfl
  | succ m ih =>
    cases m with
    | zero => cases b <;> rfl
    | succ k =>
      rw [wlist_succ_succ]
      simp only [collapseWsAux, isWs_a, isWs_sp, Bool.false_eq_true, if_false, if_true]
      rw [ih true]

lemma cw_wlist_app (n : Nat) (t : Str) (ht : ∀ c ∈ t, isWs c = false) (b : Bool) :
    collapseWsAux b (wlist (n + 1) ++ ' ' :: t) = wlist (n + 1) ++ ' ' :: t := by
  induction n generalizing b with
  | zero =>
    show collapseWsAux b ('a' :: ' ' :: t) = 'a' :: ' ' :: t
    simp only [collapseWsAux, isWs_a, isWs_sp, Bool.false_eq_true, if_false, if_true]
    rw [collapseWsAux_no_ws t ht]
  | succ k ih =>
    rw [wlist_succ_succ]
    show collapseWsAux b ('a' :: ' ' :: (wlist (k + 1) ++ ' ' :: t)) = _
    simp only [collapseWsAux, isWs_a, isWs_sp, Bool.false_eq_true, if_false, if_true,
      List.cons_append]
    rw [ih true]

lemma findOcc_wlist (p0 : Char) (ps : Str) (n : Nat) (h1 : p0 ≠ 'a') (h2 : p0 ≠ ' ') :
    findOcc (p0 :: ps) (wlist n) = none := by
  refine findOcc_none p0 ps (wlist n) (fun c hc => ?_)
  rcases wlist_chars n c hc with h | h <;> (subst h; first | exact fun he => h1 he.symm | exact fun he => h2 he.symm)

/-! ## Cleaning the two scenario bodies -/

lemma head?_append_of_head? {α : Type} {l : List α} {a : α} (h : l.head? = some a)
    (t : List α) : (l ++ t).head? = some a := by
  cases l with
  | nil => simp at h
  | cons b bs => simpa using h

lemma clean_nil : clean_html [] = [] := rfl

lemma urlB_no_ws : ∀ c ∈ urlB, isWs c = false := by decide

lemma aBody_mem (c : Char) (hc : c ∈ aBody) : (c = 'a' ∨ c = ' ') ∨ c ∈ urlB := by
  unfold aBody at hc
  rcases List.mem_append.mp hc with h | h
  · exact Or.inl (wlist_chars 199 c h)
  · rcases List.mem_cons.mp h with h | h
    · exact Or.inl (Or.inr h)
    · exact Or.inr h

lemma aBody_no (p0 : Char) (h1 : p0 ≠ 'a') (h2 : p0 ≠ ' ') (h3 : ∀ c ∈ urlB, c ≠ p0) :
    ∀ c ∈ aBody, c ≠ p0 := by
  intro c hc
  rcases aBody_mem c hc with (h | h) | h
  · exact h ▸ fun he => h1 he.symm
  · exact h ▸ fun he => h2 he.symm
  · exact h3 c h

lemma bClean_mem (c : Char) (hc : c ∈ bClean) : c = 'a' ∨ c = ' ' := by
  unfold bClean at hc
  rcases List.mem_append.mp hc with h | h
  · have h' : c ∈ ('a' :: 'a' :: 'a' :: 'a' :: ' ' :: []) := h
    simp only [List.mem_cons, List.not_mem_nil, or_false] at h'
    tauto
  · exact wlist_chars 2199 c h

lemma bClean_no (p0 : Char) (h1 : p0 ≠ 'a') (h2 : p0 ≠ ' ') : ∀ c ∈ bClean, c ≠ p0 := by
  intro c hc
  rcases bClean_mem c hc with h | h
  · exact h ▸ fun he => h1 he.symm
  · exact h ▸ fun he => h2 he.symm

lemma clean_aBody : clean_html aBody = aBody := by
  have h1 : stripTags aBody = aBody :=
    stripTagsSM_no_lt aBody (aBody_no '<' (by decide) (by decide) (by decide))
  have h2 : collapseWs aBody = aBody := cw_wlist_app 198 urlB urlB_no_ws false
  have hh : aBody.head? = some 'a' := head?_append_of_head? (wlist_head 198) _
  have hr : aBody.reverse.head? = some 'b' := by
    unfold aBody
    rw [List.reverse_append]
    exact head?_append_of_head? (by decide) _
  unfold clean_html
  rw [h1]
  rw [show collapseWs aBody = aBody from h2]
  exact stripEnds_id aBody 'a' 'b' hh (by decide) hr (by decide)

lemma strip_bBody : stripTags bBody = bClean := by
  have key : ∀ v : Str, stripTagsSM none (bPre ++ v) = "aaaa ".data ++ stripTagsSM none v :=
    fun v => rfl
  show stripTagsSM none (bPre ++ wlist 2199) = bClean
  rw [key]
  rw [stripTagsSM_no_lt (wlist 2199) (fun c hc => by
    rcases wlist_chars 2199 c hc with h | h <;> (subst h; decide))]
  rfl

lemma collapse_bClean : collapseWs bClean = bClean := by
  have key : ∀ v : Str, collapseWsAux false ("aaaa ".data ++ v) =
      "aaaa ".data ++ collapseWsAux true v := fun v => rfl
  show collapseWsAux false ("aaaa ".data ++ wlist 2199) = bClean
  rw [key, cw_wlist 2199 true]
  rfl

lemma stripEnds_bClean : stripEnds bClean = bClean := by
  have hh : bClean.head? = some 'a' := rfl
  have hr : bClean.reverse.head? = some 'a' := by
    unfold bClean
    rw [List.reverse_append]
    exact head?_append_of_head? (wlist_rev_head 2198) _
  exact stripEnds_id bClean 'a' 'a' hh (by decide) hr (by decide)

lemma clean_bBody : clean_html bBody = bClean := by
  unfold clean_html
  rw [strip_bBody]
  rw [show collapseWs bClean = bClean from collapse_bClean]
  exact stripEnds_bClean

/-! ## Word counts of the scenario bodies -/

lemma wc_aBody : wordCount aBody = 200 := by
  show wordCountAux false (wlist (198 + 1) ++ ' ' :: urlB) = 200
  rw [wc_wlist_app]
  norm_num [show wordCountAux false urlB = 1 from by decide]

lemma wc_bClean : wordCount bClean = 2200 := by
  have key : ∀ v : Str, wordCountAux false ("aaaa ".data ++ v) =
      1 + wordCountAux false v := fun v => rfl
  show wordCountAux false ("aaaa ".data ++ wlist 2199) = 2200
  rw [key, wc_wlist]

/-! ## Evaluating the depth score -/

lemma depth_eval (d : Attrs) (s : Str) (hs : d.content = some s) :
    calculate_content_depth d =
      min (wordCountBonus (wordCount s) +
        (if countSub "<h2".data s + countSub "## ".data s > 3 then (0.2 : ℚ) else 0) +
        (if countSub "<h3".data s + countSub "### ".data s > 5 then (0.1 : ℚ) else 0) +
        (if containsSub "<img".data s || containsSub "[gallery".data s then (0.1 : ℚ) else 0) +
        (if containsSub "<ul".data s || containsSub "<ol".data s ||
            containsSub "- ".data s then (0.1 : ℚ) else 0) +
        (if containsSub "itemtype".data s || containsSub "@type".data s then (0.2 : ℚ) else 0)) 1 := by
  unfold calculate_content_depth
  rw [hs]
  rfl

lemma findLinksF_succ (sp : Str) (fuel : Nat) (s l rest : Str)
    (h : scanLink sp s = some (l, rest)) :
    findLinksF sp (fuel + 1) s = l :: findLinksF sp fuel rest := by
  simp only [findLinksF, h]

lemma countSubF_stop (pat : Str) (fuel n : Nat) (s : Str) (h : findOcc pat s = none) :
    countSubF pat (fuel + 1) n s = n := by
  simp only [countSubF, h]

lemma depthA : calculate_content_depth attrsA = 0 := by
  have k1 : countSub "<h2".data aBody = 0 :=
    countSub_zero _ _ (findOcc_none '<' _ _ (aBody_no '<' (by decide) (by decide) (by decide)))
  have k2 : countSub "## ".data aBody = 0 :=
    countSub_zero _ _ (findOcc_none '#' _ _ (aBody_no '#' (by decide) (by decide) (by decide)))
  have k3 : countSub "<h3".data aBody = 0 :=
    countSub_zero _ _ (findOcc_none '<' _ _ (aBody_no '<' (by decide) (by decide) (by decide)))
  have k4 : countSub "### ".data aBody = 0 :=
    countSub_zero _ _ (findOcc_none '#' _ _ (aBody_no '#' (by decide) (by decide) (by decide)))
  have m1 : containsSub "<img".data aBody = false :=
    containsSub_false '<' _ _ (aBody_no '<' (by decide) (by decide) (by decide))
  have m2 : containsSub "[gallery".data aBody = false :=
    containsSub_false '[' _ _ (aBody_no '[' (by decide) (by decide) (by decide))
  have m3 : containsSub "<ul".data aBody = false :=
    containsSub_false '<' _ _ (aBody_no '<' (by decide) (by decide) (by decide))
  have m4 : containsSub "<ol".data aBody = false :=
    containsSub_false '<' _ _ (aBody_no '<' (by decide) (by decide) (by decide))
  have m5 : containsSub "- ".data aBody = false :=
    containsSub_false '-' _ _ (aBody_no '-' (by decide) (by decide) (by decide))
  have m6 : containsSub "itemtype".data aBody = false :=
    containsSub_false 'i' _ _ (aBody_no 'i' (by decide) (by decide) (by decide))
  have m7 : containsSub "@type".data aBody = false :=
    containsSub_false '@' _ _ (aBody_no '@' (by decide) (by decide) (by decide))
  rw [depth_eval attrsA aBody rfl, wc_aBody, k1, k2, k3, k4, m1, m2, m3, m4, m5, m6, m7]
  norm_num [wordCountBonus]

lemma bClean_no_s (p0 : Char) (h1 : p0 ≠ 'a') (h2 : p0 ≠ ' ') :
    ∀ {ps : Str}, findOcc (p0 :: ps) bClean = none := fun {ps} =>
  findOcc_none p0 ps bClean (bClean_no p0 h1 h2)

lemma depthB : calculate_content_depth attrsB = 0.3 := by
  have k1 : countSub "<h2".data bClean = 0 :=
    countSub_zero _ _ (bClean_no_s '<' (by decide) (by decide))
  have k2 : countSub "## ".data bClean = 0 :=
    countSub_zero _ _ (bClean_no_s '#' (by decide) (by decide))
  have k3 : countSub "<h3".data bClean = 0 :=
    countSub_zero _ _ (bClean_no_s '<' (by decide) (by decide))
  have k4 : countSub "### ".data bClean = 0 :=
    countSub_zero _ _ (bClean_no_s '#' (by decide) (by decide))
  have m1 : containsSub "<img".data bClean = false :=
    containsSub_false '<' _ _ (bClean_no '<' (by decide) (by decide))
  have m2 : containsSub "[gallery".data bClean = false :=
    containsSub_false '[' _ _ (bClean_no '[' (by decide) (by decide))
  have m3 : containsSub "<ul".data bClean = false :=
    containsSub_false '<' _ _ (bClean_no '<' (by decide) (by decide))
  have m4 : containsSub "<ol".data bClean = false :=
    containsSub_false '<' _ _ (bClean_no '<' (by decide) (by decide))
  have m5 : containsSub "- ".data bClean = false :=
    containsSub_false '-' _ _ (bClean_no '-' (by decide) (by decide))
  have m6 : containsSub "itemtype".data bClean = false :=
    containsSub_false 'i' _ _ (bClean_no 'i' (by decide) (by decide))
  have m7 : containsSub "@type".data bClean = false :=
    containsSub_false '@' _ _ (bClean_no '@' (by decide) (by decide))
  rw [depth_eval attrsB bClean rfl, wc_bClean, k1, k2, k3, k4, m1, m2, m3, m4, m5, m6, m7]
  norm_num [wordCountBonus]

/-! ## Link extraction on the scenario bodies -/

lemma scanLink_append_no (p0 : Char) (ps : Str) (h1 : p0 ≠ '.') (u : Str)
    (hu : ∀ c ∈ u, c ≠ p0) (t : Str) :
    scanLink (p0 :: ps) (u ++ t) = scanLink (p0 :: ps) t := by
  induction u with
  | nil => rfl
  | cons c cs ih =>
    have hc : c ≠ p0 := hu c (List.mem_cons_self c cs)
    rw [List.cons_append]
    simp only [scanLink, tryMatchLink_none p0 ps c _ h1 (fun he => hc he.symm)]
    exact ih fun d hd => hu d (List.mem_cons_of_mem c hd)

lemma sp_eq : siteC1 ++ ['/'] = 'h' :: "ttps://example.com/".data := by decide

lemma links_aBody : findLinks siteC1 aBody = [urlB] := by
  have hscan : scanLink (siteC1 ++ ['/']) aBody = some (urlB, []) := by
    rw [sp_eq]
    show scanLink _ (wlist 199 ++ ' ' :: urlB) = _
    rw [scanLink_append_no 'h' _ (by decide) (wlist 199)
      (fun c hc => by rcases wlist_chars 199 c hc with h | h <;> (subst h; decide))]
    decide
  show findLinksF (siteC1 ++ ['/']) (aBody.length + 1) aBody = [urlB]
  rw [findLinksF_succ _ _ _ _ _ hscan, findLinksF_of_none (siteC1 ++ ['/']) [] rfl]

lemma links_bClean : findLinks siteC1 bClean = [] := by
  have hscan : scanLink (siteC1 ++ ['/']) bClean = none := by
    rw [sp_eq]
    exact scanLink_none 'h' _ (by decide) bClean
      (fun c hc => by rcases bClean_mem c hc with h | h <;> (subst h; decide))
  unfold findLinks
  exact findLinksF_of_none _ bClean hscan _

/-! ## Facts about the hub-scenario content -/

lemma wlist_len (n : Nat) : (wlist (n + 1)).length = 2 * n + 1 := by
  induction n with
  | zero => rfl
  | succ k ih =>
    rw [wlist_succ_succ]
    simp only [List.length_cons, ih]
    omega

lemma hub_len : hubContent.length = 1050 := by
  have h1 : (wlist 501).length = 1001 := by
    have := wlist_len 500
    norm_num at this
    exact this
  show (hubPre ++ wlist 501).length = 1050
  rw [List.length_append, h1, show hubPre.length = 49 from by decide]

lemma hub_no (p0 : Char) (h1 : p0 ≠ 'a') (h2 : p0 ≠ ' ') (h3 : ∀ c ∈ hubPre, c ≠ p0) :
    ∀ c ∈ hubContent, c ≠ p0 := by
  intro c hc
  rcases List.mem_append.mp hc with h | h
  · exact h3 c h
  · rcases wlist_chars 501 c h with h' | h'
    · exact h' ▸ fun he => h1 he.symm
    · exact h' ▸ fun he => h2 he.symm

lemma wcHub : wordCount hubContent = 505 := by
  have key : ∀ v : Str, wordCountAux false (hubPre ++ v) =
      1 + (1 + (1 + (1 + wordCountAux false v))) := fun v => rfl
  show wordCountAux false (hubPre ++ wlist 501) = 505
  rw [key, wc_wlist]

lemma countH2 : countSub "<h2".data hubContent = 4 := by
  have keyA : ∀ v : Str, countSubF "<h2".data (1050 + 1) 0 (hubPre ++ v) =
      countSubF "<h2".data (1046 + 1) 4 (" <h3<h3<h3<h3<h3<h3 ".data ++ v) := fun v => rfl
  have keyB : ∀ v : Str, findOcc "<h2".data (" <h3<h3<h3<h3<h3<h3 ".data ++ v) =
      findOcc "<h2".data v := fun v => rfl
  show countSubF "<h2".data (hubContent.length + 1) 0 hubContent = 4
  rw [hub_len]
  show countSubF "<h2".data (1050 + 1) 0 (hubPre ++ wlist 501) = 4
  rw [keyA]
  exact countSubF_stop _ 1046 4 _
    (by rw [keyB]; exact findOcc_wlist '<' _ 501 (by decide) (by decide))

lemma countH3 : countSub "<h3".data hubContent = 6 := by
  have keyA : ∀ v : Str, countSubF "<h3".data (1050 + 1) 0 (hubPre ++ v) =
      countSubF "<h3".data (1044 + 1) 6 (' ' :: v) := fun v => rfl
  have keyB : ∀ v : Str, findOcc "<h3".data (' ' :: v) = findOcc "<h3".data v :=
    fun v => rfl
  show countSubF "<h3".data (hubContent.length + 1) 0 hubContent = 6
  rw [hub_len]
  show countSubF "<h3".data (1050 + 1) 0 (hubPre ++ wlist 501) = 6
  rw [keyA]
  exact countSubF_stop _ 1044 6 _
    (by rw [keyB]; exact findOcc_wlist '<' _ 501 (by decide) (by decide))

lemma countHubSharp : countSub "## ".data hubContent = 0 :=
  countSub_zero _ _ (findOcc_none '#' _ _ (hub_no '#' (by decide) (by decide) (by decide)))

lemma countHubSharp3 : countSub "### ".data hubContent = 0 :=
  countSub_zero _ _ (findOcc_none '#' _ _ (hub_no '#' (by decide) (by decide) (by decide)))

lemma hubImg : containsSub "<img".data hubContent = true := by
  have key : ∀ v : Str, containsSub "<img".data (hubPre ++ v) = true := fun v => rfl
  exact key _

lemma hubUl : containsSub "<ul".data hubContent = true := by
  have key : ∀ v : Str, containsSub "<ul".data (hubPre ++ v) = true := fun v => rfl
  exact key _

lemma hubItem : containsSub "itemtype".data hubContent = true := by
  have key : ∀ v : Str, containsSub "itemtype".data (hubPre ++ v) = true := fun v => rfl
  exact key _

lemma depthHub : calculate_content_depth attrsHub = 4 / 5 := by
  rw [depth_eval attrsHub hubContent rfl, wcHub, countH2, countH3, countHubSharp,
    countHubSharp3, hubImg, hubUl, hubItem]
  norm_num [wordCountBonus]

/-! ## Building the end-to-end graph -/

lemma postAttrs_A : postAttrs postA = attrsA := by
  simp [postAttrs, postA, attrsA, RVal.text, clean_aBody, clean_nil]

lemma postAttrs_B : postAttrs postB = attrsB := by
  simp [postAttrs, postB, attrsB, RVal.text, clean_bBody, clean_nil]

lemma rstrip_siteC1 : rstripSlash siteC1 = siteC1 := by decide

lemma linkPhase_gen (ca cb : Str)
    (hA : findLinks siteC1 ca = [urlB]) (hB : findLinks siteC1 cb = []) :
    build_internal_link_edges siteC1
      ⟨[(.inl 1, { type_ := some postStr, title := some "A".data, url := some urlA,
                   content := some ca, excerpt := some [], categories := some [.inl 1],
                   tags := some [], date := some [] }),
        (.inl 2, { type_ := some postStr, title := some "B".data, url := some urlB,
                   content := some cb, excerpt := some [], categories := some [.inl 1],
                   tags := some [], date := some [] })], []⟩ =
      ⟨[(.inl 1, { type_ := some postStr, title := some "A".data, url := some urlA,
                   content := some ca, excerpt := some [], categories := some [.inl 1],
                   tags := some [], date := some [] }),
        (.inl 2, { type_ := some postStr, title := some "B".data, url := some urlB,
                   content := some cb, excerpt := some [], categories := some [.inl 1],
                   tags := some [], date := some [] })],
       [(.inl 1, .inl 2, "internal_link".data)]⟩ := by
  have step1 : build_internal_link_edges siteC1
      ⟨[(.inl 1, { type_ := some postStr, title := some "A".data, url := some urlA,
                   content := some ca, excerpt := some [], categories := some [.inl 1],
                   tags := some [], date := some [] }),
        (.inl 2, { type_ := some postStr, title := some "B".data, url := some urlB,
                   content := some cb, excerpt := some [], categories := some [.inl 1],
                   tags := some [], date := some [] })], []⟩ =
      linkEdgeLoop siteC1
        [(.inl 1, { type_ := some postStr, title := some "A".data, url := some urlA,
                    content := some ca, excerpt := some [], categories := some [.inl 1],
                    tags := some [], date := some [] }),
         (.inl 2, { type_ := some postStr, title := some "B".data, url := some urlB,
                    content := some cb, excerpt := some [], categories := some [.inl 1],
                    tags := some [], date := some [] })]
        (linkEdgesFor (.inl 1)
          [(.inl 1, { type_ := some postStr, title := some "A".data, url := some urlA,
                      content := some ca, excerpt := some [], categories := some [.inl 1],
                      tags := some [], date := some [] }),
           (.inl 2, { type_ := some postStr, title := some "B".data, url := some urlB,
                      content := some cb, excerpt := some [], categories := some [.inl 1],
                      tags := some [], date := some [] })]
          ⟨[(.inl 1, { type_ := some postStr, title := some "A".data, url := some urlA,
                       content := some ca, excerpt := some [], categories := some [.inl 1],
                       tags := some [], date := some [] }),
            (.inl 2, { type_ := some postStr, title := some "B".data, url := some urlB,
                       content := some cb, excerpt := some [], categories := some [.inl 1],
                       tags := some [], date := some [] })], []⟩
          (findLinks siteC1 ca))
        [(.inl 2, { type_ := some postStr, title := some "B".data, url := some urlB,
                    content := some cb, excerpt := some [], categories := some [.inl 1],
                    tags := some [], date := some [] })] := rfl
  rw [step1, hA]
  have step2 : ∀ g : Graph,
      linkEdgeLoop siteC1
        [(.inl 1, { type_ := some postStr, title := some "A".data, url := some urlA,
                    content := some ca, excerpt := some [], categories := some [.inl 1],
                    tags := some [], date := some [] }),
         (.inl 2, { type_ := some postStr, title := some "B".data, url := some urlB,
                    content := some cb, excerpt := some [], categories := some [.inl 1],
                    tags := some [], date := some [] })] g
        [(.inl 2, { type_ := some postStr, title := some "B".data, url := some urlB,
                    content := some cb, excerpt := some [], categories := some [.inl 1],
                    tags := some [], date := some [] })] =
      linkEdgesFor (.inl 2)
        [(.inl 1, { type_ := some postStr, title := some "A".data, url := some urlA,
                    content := some ca, excerpt := some [], categories := some [.inl 1],
                    tags := some [], date := some [] }),
         (.inl 2, { type_ := some postStr, title := some "B".data, url := some urlB,
                    content := some cb, excerpt := some [], categories := some [.inl 1],
                    tags := some [], date := some [] })] g
        (findLinks siteC1 cb) := fun g => rfl
  rw [step2, hB]
  rfl

lemma taxPhase :
    build_taxonomy_edges hash0
      ⟨[(.inl 1, attrsA), (.inl 2, attrsB)], [(.inl 1, .inl 2, "internal_link".data)]⟩
      [catNews] [] = gC1 := rfl

lemma buildC1 : build_content_graph siteC1 hash0 bundleC1 = .ok gC1 := by
  calc build_content_graph siteC1 hash0 bundleC1
      = .ok (build_taxonomy_edges hash0
          (build_internal_link_edges (rstripSlash siteC1)
            ⟨[(.inl 1, postAttrs postA), (.inl 2, postAttrs postB)], []⟩) [catNews] []) := rfl
    _ = .ok (build_taxonomy_edges hash0
          (build_internal_link_edges siteC1
            ⟨[(.inl 1, attrsA), (.inl 2, attrsB)], []⟩) [catNews] []) := by
        rw [postAttrs_A, postAttrs_B, rstrip_siteC1]
    _ = .ok (build_taxonomy_edges hash0
          ⟨[(.inl 1, attrsA), (.inl 2, attrsB)],
            [(.inl 1, .inl 2, "internal_link".data)]⟩ [catNews] []) := by
        exact congrArg (fun g => Except.ok (build_taxonomy_edges hash0 g [catNews] []))
          (linkPhase_gen aBody bClean links_aBody links_bClean)
    _ = .ok gC1 := by rw [taxPhase]

/-! ## Analyzer facts for the end-to-end graph -/

lemma attrsOfA : gC1.attrsOf (.inl 1) = some attrsA := rfl

lemma attrsOfB : gC1.attrsOf (.inl 2) = some attrsB := rfl

lemma hubC1 (vec : Vectorizer) (θ : Theme) :
    (analyze_content_depth vec θ gC1).hub_potential = [] := rfl

lemma orphanC1 (vec : Vectorizer) (θ : Theme) :
    (analyze_content_depth vec θ gC1).orphan_content = [] := rfl

/-! ## Invariant machinery for the greedy clustering loop -/

lemma foldl_inv {α β : Type} (P : β → Prop) (f : β → α → β) (l : List α) (b : β)
    (hb : P b) (hf : ∀ s a, P s → P (f s a)) : P (l.foldl f b) := by
  induction l generalizing b with
  | nil => exact hb
  | cons x xs ih => exact ih (f b x) (hf b x hb)

lemma clusterStep_members (ids : List NId) (sim : Nat → Nat → ℚ) (θ : Theme)
    (st : List NId × List Cluster) (i : Nat)
    (hst : ∀ cl ∈ st.2, ∀ m ∈ cl.members, m.2 > 0.3) :
    ∀ cl ∈ (clusterStep ids sim θ st i).2, ∀ m ∈ cl.members, m.2 > 0.3 := by
  unfold clusterStep
  split
  · exact hst
  · intro cl hcl m hm
    simp only at hcl
    split at hcl
    · rcases List.mem_append.mp hcl with h | h
      · exact hst cl h m hm
      · have hcl' : cl = ⟨ids.getD i dfltNId,
            (List.range ids.length).filterMap
              (fun j => if sim i j > 0.3 then some (ids.getD j dfltNId, sim i j) else none),
            θ i⟩ := by simpa using h
        subst hcl'
        simp only at hm
        rcases List.mem_filterMap.mp hm with ⟨j, _, hsome⟩
        by_cases hc : sim i j > 0.3
        · rw [if_pos hc] at hsome
          cases hsome
          exact hc
        · rw [if_neg hc] at hsome
          cases hsome
    · exact hst cl hcl m hm

lemma cluster_members_sim (vec : Vectorizer) (θ : Theme) (g : Graph) :
    ∀ cl ∈ identify_semantic_clusters vec θ g, ∀ m ∈ cl.members, m.2 > 0.3 := by
  intro cl hcl m hm
  simp only [identify_semantic_clusters] at hcl
  by_cases he : (clusterTexts g).isEmpty
  · rw [if_pos he] at hcl
    simp at hcl
  · rw [if_neg he] at hcl
    cases hv : vec ((clusterTexts g).map (·.2)) with
    | error e =>
      rw [hv] at hcl
      simp at hcl
    | ok sim =>
      rw [hv] at hcl
      exact foldl_inv (fun st => ∀ cl ∈ st.2, ∀ m ∈ cl.members, m.2 > 0.3)
        (clusterStep ((clusterTexts g).map (·.1)) sim θ) _ _ (by simp)
        (fun s a hs => clusterStep_members _ _ _ s a hs) cl hcl m hm

/-! ## Degenerate clustering inputs give the empty list -/

lemma clusters_empty_of_no_texts (vec : Vectorizer) (θ : Theme) (g : Graph)
    (h : clusterTexts g = []) : identify_semantic_clusters vec θ g = [] := by
  simp [identify_semantic_clusters, h]

lemma clusters_empty_of_vec_err (vec : Vectorizer) (θ : Theme) (g : Graph)
    (hv : vec ((clusterTexts g).map (·.2)) = .error ()) :
    identify_semantic_clusters vec θ g = [] := by
  simp only [identify_semantic_clusters]
  by_cases he : (clusterTexts g).isEmpty
  · rw [if_pos he]
  · rw [if_neg he, hv]

lemma clusters_empty_of_one (vec : Vectorizer) (θ : Theme) (g : Graph)
    (h : (clusterTexts g).length = 1) : identify_semantic_clusters vec θ g = [] := by
  obtain ⟨p, hp⟩ := List.length_eq_one.mp h
  simp only [identify_semantic_clusters, hp]
  cases hv : vec ([p].map (·.2)) with
  | error e => simp [hv]
  | ok sim =>
    have hr : List.range 1 = [0] := rfl
    simp only [List.isEmpty_cons, if_false, hv, List.length_cons, List.length_nil,
      Nat.zero_add, hr, List.foldl_cons, List.foldl_nil]
    by_cases hc : sim 0 0 > 0.3 <;>
      simp [clusterStep, nidMem, hr, hc]

/-! ## Hub and orphan membership facts -/

lemma hub_mem_links (g : Graph) (vec : Vectorizer) (θ : Theme) (e : ScoreEntry)
    (h : e ∈ (analyze_content_depth vec θ g).hub_potential) : 5 < e.internal_links := by
  simp only [analyze_content_depth] at h
  rcases List.mem_filterMap.mp h with ⟨p, _, hsome⟩
  by_cases hc : p.2.internal_links > 5 ∧ p.2.depth_score > 0.7
  · rw [if_pos hc] at hsome
    cases hsome
    exact hc.1
  · rw [if_neg hc] at hsome
    cases hsome

lemma orphan_mem_links (g : Graph) (vec : Vectorizer) (θ : Theme) (e : ScoreEntry)
    (h : e ∈ (analyze_content_depth vec θ g).orphan_content) : e.internal_links < 2 := by
  simp only [analyze_content_depth] at h
  rcases List.mem_filterMap.mp h with ⟨p, _, hsome⟩
  by_cases hc : p.2.backlinks = 0 ∧ p.2.internal_links < 2
  · rw [if_pos hc] at hsome
    cases hsome
    exact hc.2
  · rw [if_neg hc] at hsome
    cases hsome

/-! ## Node-set and edge-target invariants of the graph operations -/

lemma hasNode_iff (g : Graph) (i : NId) : g.hasNode i = true ↔ i ∈ g.nodeIds := by
  unfold Graph.hasNode Graph.nodeIds
  rw [List.any_eq_true]
  constructor
  · rintro ⟨p, hp, hpe⟩
    rw [decide_eq_true_eq] at hpe
    exact List.mem_map.mpr ⟨p, hp, hpe⟩
  · intro h
    rcases List.mem_map.mp h with ⟨p, hp, hpe⟩
    exact ⟨p, hp, by rw [decide_eq_true_eq]; exact hpe⟩

lemma nodeIds_addNode (g : Graph) (i : NId) (a : Attrs) :
    (g.addNode i a).nodeIds = if g.hasNode i then g.nodeIds else g.nodeIds ++ [i] := by
  unfold Graph.addNode
  split
  · unfold Graph.nodeIds
    simp only [List.map_map]
    refine List.map_congr_left ?_
    intro p _
    by_cases hp : p.1 = i <;> simp [hp]
  · simp [Graph.nodeIds]

lemma mem_nodeIds_addNode (g : Graph) (i : NId) (a : Attrs) (x : NId)
    (h : x ∈ g.nodeIds) : x ∈ (g.addNode i a).nodeIds := by
  rw [nodeIds_addNode]
  split
  · exact h
  · exact List.mem_append.mpr (Or.inl h)

lemma self_mem_addNode (g : Graph) (i : NId) (a : Attrs) : i ∈ (g.addNode i a).nodeIds := by
  rw [nodeIds_addNode]
  split
  · rename_i h
    exact (hasNode_iff g i).mp h
  · simp

lemma edges_addNode (g : Graph) (i : NId) (a : Attrs) : (g.addNode i a).edges = g.edges := by
  unfold Graph.addNode
  split <;> rfl

lemma withNode_facts (g : Graph) (w : NId) :
    ∃ l, (g.withNode w).nodeIds = g.nodeIds ++ l ∧ w ∈ (g.withNode w).nodeIds ∧
      (g.withNode w).edges = g.edges := by
  unfold Graph.withNode
  by_cases h : g.hasNode w
  · rw [if_pos h]
    exact ⟨[], by simp, (hasNode_iff g w).mp h, rfl⟩
  · rw [if_neg h]
    refine ⟨[w], ?_, ?_, rfl⟩
    · show (g.nodes ++ [(w, ({} : Attrs))]).map (·.1) = g.nodeIds ++ [w]
      rw [List.map_append]
      rfl
    · show w ∈ (g.nodes ++ [(w, ({} : Attrs))]).map (·.1)
      rw [List.map_append]
      exact List.mem_append.mpr (Or.inr (List.mem_singleton.mpr rfl))

lemma addEdge_facts (g : Graph) (u v : NId) (ty : Str) :
    ∃ l, (g.addEdge u v ty).nodeIds = g.nodeIds ++ l ∧ v ∈ (g.addEdge u v ty).nodeIds ∧
      ((g.addEdge u v ty).edges =
          g.edges.map (fun e => if e.1 = u ∧ e.2.1 = v then (u, v, ty) else e) ∨
        (g.addEdge u v ty).edges = g.edges ++ [(u, v, ty)]) := by
  obtain ⟨l1, hn1, _, he1⟩ := withNode_facts g u
  obtain ⟨l2, hn2, hv2, he2⟩ := withNode_facts (g.withNode u) v
  have hn : ((g.withNode u).withNode v).nodeIds = g.nodeIds ++ (l1 ++ l2) := by
    rw [hn2, hn1, List.append_assoc]
  have he : ((g.withNode u).withNode v).edges = g.edges := by rw [he2, he1]
  refine ⟨l1 ++ l2, ?_, ?_, ?_⟩
  · unfold Graph.addEdge
    split
    · exact hn
    · exact hn
  · unfold Graph.addEdge
    split
    · exact hv2
    · exact hv2
  · unfold Graph.addEdge
    split
    · exact Or.inl (by
        show ((g.withNode u).withNode v).edges.map
          (fun e => if e.1 = u ∧ e.2.1 = v then (u, v, ty) else e) =
            g.edges.map (fun e => if e.1 = u ∧ e.2.1 = v then (u, v, ty) else e)
        rw [he])
    · exact Or.inr (by
        show ((g.withNode u).withNode v).edges ++ [(u, v, ty)] = g.edges ++ [(u, v, ty)]
        rw [he])

lemma mem_nodeIds_addEdge (g : Graph) (u v : NId) (ty : Str) (x : NId)
    (h : x ∈ g.nodeIds) : x ∈ (g.addEdge u v ty).nodeIds := by
  obtain ⟨l, hn, _, _⟩ := addEdge_facts g u v ty
  rw [hn]
  exact List.mem_append.mpr (Or.inl h)

lemma target_mem_addEdge (g : Graph) (u v : NId) (ty : Str) :
    v ∈ (g.addEdge u v ty).nodeIds := by
  obtain ⟨l, _, hv, _⟩ := addEdge_facts g u v ty
  exact hv

lemma edgeInv_addEdge (g : Graph) (u v : NId) (ty : Str)
    (hinv : ∀ e ∈ g.edges, e.2.1 ∈ g.nodeIds) :
    ∀ e ∈ (g.addEdge u v ty).edges, e.2.1 ∈ (g.addEdge u v ty).nodeIds := by
  obtain ⟨l, hn, hv, he⟩ := addEdge_facts g u v ty
  intro e hee
  rcases he with he | he
  · rw [he] at hee
    rcases List.mem_map.mp hee with ⟨e0, he0, hfe⟩
    by_cases hc : e0.1 = u ∧ e0.2.1 = v
    · rw [if_pos hc] at hfe
      subst hfe
      exact hv
    · rw [if_neg hc] at hfe
      subst hfe
      rw [hn]
      exact List.mem_append.mpr (Or.inl (hinv e0 he0))
  · rw [he] at hee
    rcases List.mem_append.mp hee with h0 | h0
    · rw [hn]
      exact List.mem_append.mpr (Or.inl (hinv e h0))
    · have he' : e = (u, v, ty) := by simpa using h0
      subst he'
      exact hv

lemma edgeInv_addNode (g : Graph) (i : NId) (a : Attrs)
    (hinv : ∀ e ∈ g.edges, e.2.1 ∈ g.nodeIds) :
    ∀ e ∈ (g.addNode i a).edges, e.2.1 ∈ (g.addNode i a).nodeIds := by
  intro e he
  rw [edges_addNode] at he
  exact mem_nodeIds_addNode g i a _ (hinv e he)

/-! ## Per-phase preservation lemmas -/

lemma addPostNodes_ok (l : List Item) (g : Graph) (hl : postsDict l) :
    ∃ g', addPostNodes g l = .ok g' := by
  induction l generalizing g with
  | nil => exact ⟨g, rfl⟩
  | cons it rest ih =>
    cases it with
    | nondict => exact absurd rfl (hl .nondict (List.mem_cons_self _ _))
    | dict p =>
      have hrest : postsDict rest := fun x hx => hl x (List.mem_cons_of_mem _ hx)
      cases hid : p.id? with
      | none =>
        simp only [addPostNodes, hid]
        exact ih _ hrest
      | some i =>
        simp only [addPostNodes, hid]
        exact ih _ hrest

lemma addPostNodes_mono (l : List Item) : ∀ g g', addPostNodes g l = .ok g' →
    ∀ x ∈ g.nodeIds, x ∈ g'.nodeIds := by
  induction l with
  | nil =>
    intro g g' h x hx
    exact (Except.ok.inj h) ▸ hx
  | cons it rest ih =>
    intro g g' h x hx
    cases it with
    | nondict => simp [addPostNodes] at h
    | dict p =>
      cases hid : p.id? with
      | none =>
        simp only [addPostNodes, hid] at h
        exact ih _ _ h x hx
      | some i =>
        simp only [addPostNodes, hid] at h
        exact ih _ _ h x (mem_nodeIds_addNode _ _ _ x hx)

lemma addPostNodes_adds (l : List Item) : ∀ g g', addPostNodes g l = .ok g' →
    ∀ (p : PostDict) (i : Int), Item.dict p ∈ l → p.id? = some i →
      Sum.inl i ∈ g'.nodeIds := by
  induction l with
  | nil =>
    intro g g' _ p i hp
    simp at hp
  | cons it rest ih =>
    intro g g' h p i hp hi
    rcases List.mem_cons.mp hp with he | hm
    · subst he
      simp only [addPostNodes, hi] at h
      exact addPostNodes_mono rest _ _ h _ (self_mem_addNode g _ _)
    · cases it with
      | nondict => simp [addPostNodes] at h
      | dict q =>
        cases hid : q.id? with
        | none =>
          simp only [addPostNodes, hid] at h
          exact ih _ _ h p i hm hi
        | some j =>
          simp only [addPostNodes, hid] at h
          exact ih _ _ h p i hm hi

lemma addPostNodes_inv (l : List Item) : ∀ g g', addPostNodes g l = .ok g' →
    (∀ e ∈ g.edges, e.2.1 ∈ g.nodeIds) → ∀ e ∈ g'.edges, e.2.1 ∈ g'.nodeIds := by
  induction l with
  | nil =>
    intro g g' h hinv
    exact (Except.ok.inj h) ▸ hinv
  | cons it rest ih =>
    intro g g' h hinv
    cases it with
    | nondict => simp [addPostNodes] at h
    | dict p =>
      cases hid : p.id? with
      | none =>
        simp only [addPostNodes, hid] at h
        exact ih _ _ h hinv
      | some i =>
        simp only [addPostNodes, hid] at h
        exact ih _ _ h (edgeInv_addNode _ _ _ hinv)

lemma addPageNodes_ok (l : List PageItem) (g : Graph) (hl : pagesDict l) :
    ∃ g', addPageNodes g l = .ok g' := by
  induction l generalizing g with
  | nil => exact ⟨g, rfl⟩
  | cons it rest ih =>
    cases it with
    | nondict => exact absurd rfl (hl .nondict (List.mem_cons_self _ _))
    | dict p =>
      have hrest : pagesDict rest := fun x hx => hl x (List.mem_cons_of_mem _ hx)
      cases hid : p.id? with
      | none =>
        simp only [addPageNodes, hid]
        exact ih _ hrest
      | some i =>
        simp only [addPageNodes, hid]
        exact ih _ hrest

lemma addPageNodes_mono (l : List PageItem) : ∀ g g', addPageNodes g l = .ok g' →
    ∀ x ∈ g.nodeIds, x ∈ g'.nodeIds := by
  induction l with
  | nil =>
    intro g g' h x hx
    exact (Except.ok.inj h) ▸ hx
  | cons it rest ih =>
    intro g g' h x hx
    cases it with
    | nondict => simp [addPageNodes] at h
    | dict p =>
      cases hid : p.id? with
      | none =>
        simp only [addPageNodes, hid] at h
        exact ih _ _ h x hx
      | some i =>
        simp only [addPageNodes, hid] at h
        exact ih _ _ h x (mem_nodeIds_addNode _ _ _ x hx)

lemma addPageNodes_adds (l : List PageItem) : ∀ g g', addPageNodes g l = .ok g' →
    ∀ (p : PageDict) (i : Int), PageItem.dict p ∈ l → p.id? = some i →
      Sum.inr ("page_".data ++ (toString i).data) ∈ g'.nodeIds := by
  induction l with
  | nil =>
    intro g g' _ p i hp
    simp at hp
  | cons it rest ih =>
    intro g g' h p i hp hi
    rcases List.mem_cons.mp hp with he | hm
    · subst he
      simp only [addPageNodes, hi] at h
      exact addPageNodes_mono rest _ _ h _ (self_mem_addNode g _ _)
    · cases it with
      | nondict => simp [addPageNodes] at h
      | dict q =>
        cases hid : q.id? with
        | none =>
          simp only [addPageNodes, hid] at h
          exact ih _ _ h p i hm hi
        | some j =>
          simp only [addPageNodes, hid] at h
          exact ih _ _ h p i hm hi

lemma addPageNodes_inv (l : List PageItem) : ∀ g g', addPageNodes g l = .ok g' →
    (∀ e ∈ g.edges, e.2.1 ∈ g.nodeIds) → ∀ e ∈ g'.edges, e.2.1 ∈ g'.nodeIds := by
  induction l with
  | nil =>
    intro g g' h hinv
    exact (Except.ok.inj h) ▸ hinv
  | cons it rest ih =>
    intro g g' h hinv
    cases it with
    | nondict => simp [addPageNodes] at h
    | dict p =>
      cases hid : p.id? with
      | none =>
        simp only [addPageNodes, hid] at h
        exact ih _ _ h hinv
      | some i =>
        simp only [addPageNodes, hid] at h
        exact ih _ _ h (edgeInv_addNode _ _ _ hinv)

lemma addCatNodes_mono (h : Str → Int) (l : List TaxItem) : ∀ g, ∀ x ∈ g.nodeIds,
    x ∈ (addCatNodes h g l).nodeIds := by
  induction l with
  | nil => intro g x hx; exact hx
  | cons it rest ih =>
    intro g x hx
    cases it with
    | withId i name slug =>
      simp only [addCatNodes]
      exact ih _ x (mem_nodeIds_addNode _ _ _ x hx)
    | withUrl url =>
      simp only [addCatNodes]
      exact ih _ x (mem_nodeIds_addNode _ _ _ x hx)
    | neither => exact ih _ x hx
    | nondict => exact ih _ x hx

lemma addCatNodes_inv (h : Str → Int) (l : List TaxItem) : ∀ g,
    (∀ e ∈ g.edges, e.2.1 ∈ g.nodeIds) →
    ∀ e ∈ (addCatNodes h g l).edges, e.2.1 ∈ (addCatNodes h g l).nodeIds := by
  induction l with
  | nil => intro g hinv; exact hinv
  | cons it rest ih =>
    intro g hinv
    cases it with
    | withId i name slug =>
      simp only [addCatNodes]
      exact ih _ (edgeInv_addNode _ _ _ hinv)
    | withUrl url =>
      simp only [addCatNodes]
      exact ih _ (edgeInv_addNode _ _ _ hinv)
    | neither => exact ih _ hinv
    | nondict => exact ih _ hinv

lemma addTagNodes_mono (h : Str → Int) (l : List TaxItem) : ∀ g, ∀ x ∈ g.nodeIds,
    x ∈ (addTagNodes h g l).nodeIds := by
  induction l with
  | nil => intro g x hx; exact hx
  | cons it rest ih =>
    intro g x hx
    cases it with
    | withId i name slug =>
      simp only [addTagNodes]
      exact ih _ x (mem_nodeIds_addNode _ _ _ x hx)
    | withUrl url =>
      simp only [addTagNodes]
      exact ih _ x (mem_nodeIds_addNode _ _ _ x hx)
    | neither => exact ih _ x hx
    | nondict => exact ih _ x hx

lemma addTagNodes_inv (h : Str → Int) (l : List TaxItem) : ∀ g,
    (∀ e ∈ g.edges, e.2.1 ∈ g.nodeIds) →
    ∀ e ∈ (addTagNodes h g l).edges, e.2.1 ∈ (addTagNodes h g l).nodeIds := by
  induction l with
  | nil => intro g hinv; exact hinv
  | cons it rest ih =>
    intro g hinv
    cases it with
    | withId i name slug =>
      simp only [addTagNodes]
      exact ih _ (edgeInv_addNode _ _ _ hinv)
    | withUrl url =>
      simp only [addTagNodes]
      exact ih _ (edgeInv_addNode _ _ _ hinv)
    | neither => exact ih _ hinv
    | nondict => exact ih _ hinv

lemma addCatEdges_mono (nid : NId) (l : List CatRef) : ∀ g, ∀ x ∈ g.nodeIds,
    x ∈ (addCatEdges nid g l).nodeIds := by
  induction l with
  | nil => intro g x hx; exact hx
  | cons r rest ih =>
    intro g x hx
    cases hr : resolveCatRef g r with
    | none =>
      simp only [addCatEdges, hr]
      exact ih _ x hx
    | some tgt =>
      simp only [addCatEdges, hr]
      split
      · exact ih _ x (mem_nodeIds_addEdge _ _ _ _ x hx)
      · exact ih _ x hx

lemma addCatEdges_inv (nid : NId) (l : List CatRef) : ∀ g,
    (∀ e ∈ g.edges, e.2.1 ∈ g.nodeIds) →
    ∀ e ∈ (addCatEdges nid g l).edges, e.2.1 ∈ (addCatEdges nid g l).nodeIds := by
  induction l with
  | nil => intro g hinv; exact hinv
  | cons r rest ih =>
    intro g hinv
    cases hr : resolveCatRef g r with
    | none =>
      simp only [addCatEdges, hr]
      exact ih _ hinv
    | some tgt =>
      simp only [addCatEdges, hr]
      split
      · exact ih _ (edgeInv_addEdge _ _ _ _ hinv)
      · exact ih _ hinv

lemma addTagEdges_mono (nid : NId) (l : List CatRef) : ∀ g, ∀ x ∈ g.nodeIds,
    x ∈ (addTagEdges nid g l).nodeIds := by
  induction l with
  | nil => intro g x hx; exact hx
  | cons r rest ih =>
    intro g x hx
    cases hr : resolveTagRef g r with
    | none =>
      simp only [addTagEdges, hr]
      exact ih _ x hx
    | some tgt =>
      simp only [addTagEdges, hr]
      split
      · exact ih _ x (mem_nodeIds_addEdge _ _ _ _ x hx)
      · exact ih _ x hx

lemma addTagEdges_inv (nid : NId) (l : List CatRef) : ∀ g,
    (∀ e ∈ g.edges, e.2.1 ∈ g.nodeIds) →
    ∀ e ∈ (addTagEdges nid g l).edges, e.2.1 ∈ (addTagEdges nid g l).nodeIds := by
  induction l with
  | nil => intro g hinv; exact hinv
  | cons r rest ih =>
    intro g hinv
    cases hr : resolveTagRef g r with
    | none =>
      simp only [addTagEdges, hr]
      exact ih _ hinv
    | some tgt =>
      simp only [addTagEdges, hr]
      split
      · exact ih _ (edgeInv_addEdge _ _ _ _ hinv)
      · exact ih _ hinv

lemma taxEdgeLoop_mono (l : List (NId × Attrs)) : ∀ g, ∀ x ∈ g.nodeIds,
    x ∈ (taxEdgeLoop g l).nodeIds := by
  induction l with
  | nil => intro g x hx; exact hx
  | cons p rest ih =>
    intro g x hx
    simp only [taxEdgeLoop]
    split
    · exact ih _ x (addTagEdges_mono _ _ _ x (addCatEdges_mono _ _ _ x hx))
    · exact ih _ x hx

lemma taxEdgeLoop_inv (l : List (NId × Attrs)) : ∀ g,
    (∀ e ∈ g.edges, e.2.1 ∈ g.nodeIds) →
    ∀ e ∈ (taxEdgeLoop g l).edges, e.2.1 ∈ (taxEdgeLoop g l).nodeIds := by
  induction l with
  | nil => intro g hinv; exact hinv
  | cons p rest ih =>
    intro g hinv
    simp only [taxEdgeLoop]
    split
    · exact ih _ (addTagEdges_inv _ _ _ (addCatEdges_inv _ _ _ hinv))
    · exact ih _ hinv

lemma linkEdgesFor_mono (nid : NId) (snap : List (NId × Attrs)) (l : List Str) :
    ∀ g, ∀ x ∈ g.nodeIds, x ∈ (linkEdgesFor nid snap g l).nodeIds := by
  induction l with
  | nil => intro g x hx; exact hx
  | cons u rest ih =>
    intro g x hx
    cases hm : firstUrlMatch snap u with
    | none =>
      simp only [linkEdgesFor, hm]
      exact ih _ x hx
    | some tgt =>
      simp only [linkEdgesFor, hm]
      exact ih _ x (mem_nodeIds_addEdge _ _ _ _ x hx)

lemma linkEdgesFor_inv (nid : NId) (snap : List (NId × Attrs)) (l : List Str) :
    ∀ g, (∀ e ∈ g.edges, e.2.1 ∈ g.nodeIds) →
    ∀ e ∈ (linkEdgesFor nid snap g l).edges, e.2.1 ∈ (linkEdgesFor nid snap g l).nodeIds := by
  induction l with
  | nil => intro g hinv; exact hinv
  | cons u rest ih =>
    intro g hinv
    cases hm : firstUrlMatch snap u with
    | none =>
      simp only [linkEdgesFor, hm]
      exact ih _ hinv
    | some tgt =>
      simp only [linkEdgesFor, hm]
      exact ih _ (edgeInv_addEdge _ _ _ _ hinv)

lemma linkEdgeLoop_mono (site : Str) (snap : List (NId × Attrs)) (l : List (NId × Attrs)) :
    ∀ g, ∀ x ∈ g.nodeIds, x ∈ (linkEdgeLoop site snap g l).nodeIds := by
  induction l with
  | nil => intro g x hx; exact hx
  | cons p rest ih =>
    intro g x hx
    cases hc : p.2.content with
    | none =>
      rw [show linkEdgeLoop site snap g (p :: rest) = linkEdgeLoop site snap g rest from by
        rcases p with ⟨nid, a⟩
        simp only [linkEdgeLoop]
        rw [hc]]
      exact ih _ x hx
    | some c =>
      rw [show linkEdgeLoop site snap g (p :: rest) =
          linkEdgeLoop site snap (linkEdgesFor p.1 snap g (findLinks site c)) rest from by
        rcases p with ⟨nid, a⟩
        simp only [linkEdgeLoop]
        rw [hc]]
      exact ih _ x (linkEdgesFor_mono _ _ _ _ x hx)

lemma linkEdgeLoop_inv (site : Str) (snap : List (NId × Attrs)) (l : List (NId × Attrs)) :
    ∀ g, (∀ e ∈ g.edges, e.2.1 ∈ g.nodeIds) →
    ∀ e ∈ (linkEdgeLoop site snap g l).edges, e.2.1 ∈ (linkEdgeLoop site snap g l).nodeIds := by
  induction l with
  | nil => intro g hinv; exact hinv
  | cons p rest ih =>
    intro g hinv
    cases hc : p.2.content with
    | none =>
      rw [show linkEdgeLoop site snap g (p :: rest) = linkEdgeLoop site snap g rest from by
        rcases p with ⟨nid, a⟩
        simp only [linkEdgeLoop]
        rw [hc]]
      exact ih _ hinv
    | some c =>
      rw [show linkEdgeLoop site snap g (p :: rest) =
          linkEdgeLoop site snap (linkEdgesFor p.1 snap g (findLinks site c)) rest from by
        rcases p with ⟨nid, a⟩
        simp only [linkEdgeLoop]
        rw [hc]]
      exact ih _ (linkEdgesFor_inv _ _ _ _ hinv)

/-! ## Whole-build lemmas -/

lemma build_ok (site : Str) (h : Str → Int) (b : Bundle)
    (hp : postsDict b.posts) (hq : pagesDict b.pages) :
    ∃ g, build_content_graph site h b = .ok g := by
  obtain ⟨g1, h1⟩ := addPostNodes_ok b.posts ⟨[], []⟩ hp
  obtain ⟨g2, h2⟩ := addPageNodes_ok b.pages g1 hq
  refine ⟨build_taxonomy_edges h (build_internal_link_edges (rstripSlash site) g2)
    b.categories b.tags, ?_⟩
  unfold build_content_graph buildFrom
  simp only [h1, h2]

lemma build_decomp (site : Str) (h : Str → Int) (b : Bundle) (g : Graph)
    (hok : build_content_graph site h b = .ok g) :
    ∃ g1 g2, addPostNodes ⟨[], []⟩ b.posts = .ok g1 ∧ addPageNodes g1 b.pages = .ok g2 ∧
      g = build_taxonomy_edges h (build_internal_link_edges (rstripSlash site) g2)
        b.categories b.tags := by
  unfold build_content_graph buildFrom at hok
  cases h1 : addPostNodes ⟨[], []⟩ b.posts with
  | error e =>
    simp only [h1] at hok
    exact Except.noConfusion hok
  | ok g1 =>
    simp only [h1] at hok
    cases h2 : addPageNodes g1 b.pages with
    | error e =>
      simp only [h2] at hok
      exact Except.noConfusion hok
    | ok g2 =>
      simp only [h2] at hok
      exact ⟨g1, g2, rfl, h2, (Except.ok.inj hok).symm⟩

lemma tax_mono (h : Str → Int) (cats tags : List TaxItem) (g : Graph) (x : NId)
    (hx : x ∈ g.nodeIds) : x ∈ (build_taxonomy_edges h g cats tags).nodeIds := by
  unfold build_taxonomy_edges
  exact taxEdgeLoop_mono _ _ x (addTagNodes_mono _ _ _ x (addCatNodes_mono _ _ _ x hx))

lemma link_mono (site : Str) (g : Graph) (x : NId) (hx : x ∈ g.nodeIds) :
    x ∈ (build_internal_link_edges site g).nodeIds := by
  unfold build_internal_link_edges
  exact linkEdgeLoop_mono _ _ _ _ x hx

lemma tax_inv (h : Str → Int) (cats tags : List TaxItem) (g : Graph)
    (hinv : ∀ e ∈ g.edges, e.2.1 ∈ g.nodeIds) :
    ∀ e ∈ (build_taxonomy_edges h g cats tags).edges,
      e.2.1 ∈ (build_taxonomy_edges h g cats tags).nodeIds := by
  unfold build_taxonomy_edges
  exact taxEdgeLoop_inv _ _ (addTagNodes_inv _ _ _ (addCatNodes_inv _ _ _ hinv))

lemma link_inv (site : Str) (g : Graph)
    (hinv : ∀ e ∈ g.edges, e.2.1 ∈ g.nodeIds) :
    ∀ e ∈ (build_internal_link_edges site g).edges,
      e.2.1 ∈ (build_internal_link_edges site g).nodeIds := by
  unfold build_internal_link_edges
  exact linkEdgeLoop_inv _ _ _ _ hinv

lemma build_post_mem (site : Str) (h : Str → Int) (b : Bundle) (g : Graph)
    (hok : build_content_graph site h b = .ok g) (p : PostDict) (i : Int)
    (hp : Item.dict p ∈ b.posts) (hi : p.id? = some i) : Sum.inl i ∈ g.nodeIds := by
  obtain ⟨g1, g2, h1, h2, hg⟩ := build_decomp site h b g hok
  subst hg
  exact tax_mono _ _ _ _ _ (link_mono _ _ _
    (addPageNodes_mono _ _ _ h2 _ (addPostNodes_adds _ _ _ h1 p i hp hi)))

lemma build_page_mem (site : Str) (h : Str → Int) (b : Bundle) (g : Graph)
    (hok : build_content_graph site h b = .ok g) (p : PageDict) (i : Int)
    (hp : PageItem.dict p ∈ b.pages) (hi : p.id? = some i) :
    Sum.inr ("page_".data ++ (toString i).data) ∈ g.nodeIds := by
  obtain ⟨g1, g2, h1, h2, hg⟩ := build_decomp site h b g hok
  subst hg
  exact tax_mono _ _ _ _ _ (link_mono _ _ _ (addPageNodes_adds _ _ _ h2 p i hp hi))

lemma build_edgeInv (site : Str) (h : Str → Int) (b : Bundle) (g : Graph)
    (hok : build_content_graph site h b = .ok g) :
    ∀ e ∈ g.edges, e.2.1 ∈ g.nodeIds := by
  obtain ⟨g1, g2, h1, h2, hg⟩ := build_decomp site h b g hok
  subst hg
  refine tax_inv _ _ _ _ (link_inv _ _ (addPageNodes_inv _ _ _ h2 (addPostNodes_inv _ _ _ h1 ?_)))
  intro e he
  simp at he

/-! ## Hub scenario: the analyzer's report on `gHub` -/

lemma hubEntry : scoreEntryOf gHub (Sum.inl 1) attrsHub = eHub := by
  unfold scoreEntryOf eHub
  rw [ScoreEntry.mk.injEq]
  exact ⟨rfl, rfl, depthHub, wcHub, rfl, rfl⟩

lemma hub_list : (analyze_content_depth vecFail theme0 gHub).hub_potential = [eHub] := by
  have hcs : contentScores gHub = [(Sum.inl 1, eHub)] := by
    rw [show contentScores gHub = [(Sum.inl 1, scoreEntryOf gHub (Sum.inl 1) attrsHub)]
      from rfl, hubEntry]
  show (contentScores gHub).filterMap
    (fun p => if p.2.internal_links > 5 ∧ p.2.depth_score > 0.7 then some p.2 else none) = [eHub]
  rw [hcs]
  norm_num [List.filterMap_cons, List.filterMap_nil, eHub]

/-! ## Facts shared by the claim section -/

lemma clustersC2 : identify_semantic_clusters vecC2 theme0 gC2 = [clusterX, clusterY] := by
  norm_num [identify_semantic_clusters, clusterTexts, gC2, vecC2, clusterStep, simC2, nidMem,
    List.range_succ, theme0, dfltNId, clusterX, clusterY, List.filterMap_cons, List.foldl_cons,
    List.foldl_nil, postStr, pageStr, truthyContent]

lemma buildC4w : build_content_graph siteC1 hash0 bundleC4w = .ok gC4w := rfl

/-! # Claim theorems -/

/-- C1, counterexample to the frozen text: in the two-post scenario the build
succeeds and stores post B with attributes `attrsB`, whose depth score is 0.3
rather than the claimed 0.6 — `clean_html` removes the four `<h2>` headings and
the `<img>` tag before the content is stored, so the heading and image bonuses
of `calculate_content_depth` never fire on the cleaned text. -/
theorem C1_counterexample :
    build_content_graph siteC1 hash0 bundleC1 = .ok gC1 ∧
    gC1.attrsOf (Sum.inl 2) = some attrsB ∧
    calculate_content_depth attrsB = 0.3 ∧ (0.3 : ℚ) ≠ 0.6 :=
  ⟨buildC1, attrsOfB, depthB, by norm_num⟩

/-- C1 (corrected): the two-post scenario builds exactly the 3-node graph with
edges A→B (internal_link), A→cat_1 and B→cat_1 (categorized_as); post A has
depth score 0.0 and post B has depth score 0.3 (the word-count bonus only,
since the markup is stripped at ingestion), and for every vectorizer neither
post is classified hub or orphan. -/
theorem C1_corrected :
    build_content_graph siteC1 hash0 bundleC1 = .ok gC1 ∧
    gC1.nodeIds = [Sum.inl 1, Sum.inl 2, cat1Id] ∧
    gC1.edges = [(Sum.inl 1, Sum.inl 2, "internal_link".data),
                 (Sum.inl 1, cat1Id, "categorized_as".data),
                 (Sum.inl 2, cat1Id, "categorized_as".data)] ∧
    gC1.attrsOf (Sum.inl 1) = some attrsA ∧
    gC1.attrsOf (Sum.inl 2) = some attrsB ∧
    calculate_content_depth attrsA = 0 ∧
    calculate_content_depth attrsB = 0.3 ∧
    ∀ (vec : Vectorizer) (θ : Theme),
      (analyze_content_depth vec θ gC1).hub_potential = [] ∧
      (analyze_content_depth vec θ gC1).orphan_content = [] :=
  ⟨buildC1, rfl, rfl, attrsOfA, attrsOfB, depthA, depthB,
   fun vec θ => ⟨hubC1 vec θ, orphanC1 vec θ⟩⟩

/-- C2, counterexample to the frozen text: on the three-post graph `gC2` the
clusterer returns two distinct clusters that both contain node 2 as a member —
the `visited` set only suppresses the seeding of new clusters, it does not
prevent an already-visited node from being collected into a later cluster. -/
theorem C2_counterexample :
    identify_semantic_clusters vecC2 theme0 gC2 = [clusterX, clusterY] ∧
    clusterX ≠ clusterY ∧
    ((Sum.inl 2 : NId), (2/5 : ℚ)) ∈ clusterX.members ∧
    ((Sum.inl 2 : NId), (2/5 : ℚ)) ∈ clusterY.members :=
  ⟨clustersC2, by simp [clusterX, clusterY], by simp [clusterX], by simp [clusterY]⟩

/-- C2 (corrected): every member entry of every returned cluster has
similarity to the cluster seed strictly greater than 0.3; a node id can
however appear as a member of two different clusters in the same list. -/
theorem C2_corrected (vec : Vectorizer) (θ : Theme) (g : Graph) :
    ∀ cl ∈ identify_semantic_clusters vec θ g, ∀ m ∈ cl.members, m.2 > 0.3 :=
  cluster_members_sim vec θ g

/-- C2 witness: the similarity bound instantiated on the concrete clustering
run over `gC2`. -/
theorem C2_witness :
    clusterX ∈ identify_semantic_clusters vecC2 theme0 gC2 ∧
    ((Sum.inl 1 : NId), (1 : ℚ)) ∈ clusterX.members ∧ ((1 : ℚ) > 0.3) := by
  have h1 : clusterX ∈ identify_semantic_clusters vecC2 theme0 gC2 := by
    rw [clustersC2]
    exact List.mem_cons_self _ _
  have h2 : ((Sum.inl 1 : NId), (1 : ℚ)) ∈ clusterX.members := by simp [clusterX]
  exact ⟨h1, h2, C2_corrected vecC2 theme0 gC2 clusterX h1 _ h2⟩

/-- C3, counterexample to the frozen text: a single wrong-shape (non-dict)
post item aborts the whole build — the `AttributeError` raised by `.get` on a
non-dict is not caught by the `except (KeyError, TypeError)` handler — so the
well-formed post behind it is never ingested. -/
theorem C3_counterexample :
    build_content_graph siteC1 hash0 bundleC3cex = .error () ∧
    Item.dict postSmall ∈ bundleC3cex.posts :=
  ⟨rfl, by decide⟩

/-- C3 (corrected): when every post and page item is a dict, the build always
completes, and every item carrying an id yields its node — items missing the
id are merely skipped; only wrong-shape (non-dict) items abort the run. -/
theorem C3_corrected (site : Str) (h : Str → Int) (b : Bundle)
    (hp : postsDict b.posts) (hq : pagesDict b.pages) :
    ∃ g, build_content_graph site h b = .ok g ∧
      (∀ (pd : PostDict) (i : Int), Item.dict pd ∈ b.posts → pd.id? = some i →
        Sum.inl i ∈ g.nodeIds) ∧
      (∀ (pg : PageDict) (i : Int), PageItem.dict pg ∈ b.pages → pg.id? = some i →
        Sum.inr ("page_".data ++ (toString i).data) ∈ g.nodeIds) := by
  obtain ⟨g, hok⟩ := build_ok site h b hp hq
  exact ⟨g, hok, fun pd i hm hi => build_post_mem site h b g hok pd i hm hi,
         fun pg i hm hi => build_page_mem site h b g hok pg i hm hi⟩

/-- C3 witness: a bundle holding an id-less post, a well-formed post and a
well-formed page builds fine and ingests both well-formed items. -/
theorem C3_witness :
    postsDict bundleC3w.posts ∧ pagesDict bundleC3w.pages ∧
    ∃ g, build_content_graph siteC1 hash0 bundleC3w = .ok g ∧
      Sum.inl 9 ∈ g.nodeIds ∧
      Sum.inr ("page_".data ++ (toString (3 : Int)).data) ∈ g.nodeIds := by
  have hp : postsDict bundleC3w.posts := by
    unfold postsDict
    decide
  have hq : pagesDict bundleC3w.pages := by
    unfold pagesDict
    decide
  obtain ⟨g, hok, hposts, hpages⟩ := C3_corrected siteC1 hash0 bundleC3w hp hq
  exact ⟨hp, hq, g, hok, hposts postSmall 9 (by decide) rfl, hpages pageSmall 3 (by decide) rfl⟩

/-- C4: a dangling category reference is harmless — the build completes, the
referring post node is present, and since every edge target is a graph node,
no categorized_as (or any) edge from the post to the absent category node
exists. -/
theorem C4_confirmed (site : Str) (h : Str → Int) (b : Bundle)
    (hp : postsDict b.posts) (hq : pagesDict b.pages) (pd : PostDict) (i c : Int)
    (hm : Item.dict pd ∈ b.posts) (hi : pd.id? = some i) :
    ∃ g, build_content_graph site h b = .ok g ∧ Sum.inl i ∈ g.nodeIds ∧
      (Sum.inr ("cat_".data ++ (toString c).data) ∉ g.nodeIds →
        ∀ ty, (Sum.inl i, Sum.inr ("cat_".data ++ (toString c).data), ty) ∉ g.edges) := by
  obtain ⟨g, hok⟩ := build_ok site h b hp hq
  refine ⟨g, hok, build_post_mem site h b g hok pd i hm hi, fun habs ty he => ?_⟩
  exact habs (build_edgeInv site h b g hok _ he)

/-- C4 witness: the one-post bundle whose post references category 7 with no
category items at all. -/
theorem C4_witness :
    build_content_graph siteC1 hash0 bundleC4w = .ok gC4w ∧
    Sum.inl 1 ∈ gC4w.nodeIds ∧
    Sum.inr ("cat_".data ++ (toString (7 : Int)).data) ∉ gC4w.nodeIds ∧
    ∀ ty, (Sum.inl 1, Sum.inr ("cat_".data ++ (toString (7 : Int)).data), ty) ∉ gC4w.edges := by
  obtain ⟨g, hok, hmem, himp⟩ := C4_confirmed siteC1 hash0 bundleC4w
    (by unfold postsDict; decide) (by unfold pagesDict; decide) postC4 1 7 (by decide) rfl
  have hg : g = gC4w := Except.ok.inj (hok.symm.trans buildC4w)
  subst hg
  exact ⟨buildC4w, hmem, by simp [gC4w, Graph.nodeIds], himp (by simp [gC4w, Graph.nodeIds])⟩

/-- C5: no score entry appears both in hub_potential and in orphan_content —
hubs need more than 5 outgoing internal links, orphans fewer than 2. -/
theorem C5_confirmed (g : Graph) (vec : Vectorizer) (θ : Theme) (e : ScoreEntry)
    (hh : e ∈ (analyze_content_depth vec θ g).hub_potential) :
    e ∉ (analyze_content_depth vec θ g).orphan_content := by
  intro ho
  have h1 := hub_mem_links g vec θ e hh
  have h2 := orphan_mem_links g vec θ e ho
  omega

/-- C5 witness: the six-link rich post of `gHub` is a hub candidate and hence
not orphan content. -/
theorem C5_witness :
    eHub ∈ (analyze_content_depth vecFail theme0 gHub).hub_potential ∧
    eHub ∉ (analyze_content_depth vecFail theme0 gHub).orphan_content := by
  have hm : eHub ∈ (analyze_content_depth vecFail theme0 gHub).hub_potential := by
    rw [hub_list]
    exact List.mem_singleton.mpr rfl
  exact ⟨hm, C5_confirmed gHub vecFail theme0 eHub hm⟩

/-- C6: the word-count tiers are mutually exclusive — each band contributes
exactly its own bonus, and a 1500-word text contributes exactly 0.2. -/
theorem C6_confirmed (wc : Nat) :
    (2000 < wc → wordCountBonus wc = 0.3) ∧
    (1000 < wc → wc ≤ 2000 → wordCountBonus wc = 0.2) ∧
    (500 < wc → wc ≤ 1000 → wordCountBonus wc = 0.1) ∧
    (wc ≤ 500 → wordCountBonus wc = 0) ∧
    wordCountBonus 1500 = 0.2 := by
  unfold wordCountBonus
  refine ⟨fun h1 => ?_, fun h1 h2 => ?_, fun h1 h2 => ?_, fun h1 => ?_, by norm_num⟩
  · rw [if_pos h1]
  · rw [if_neg (by omega), if_pos h1]
  · rw [if_neg (by omega), if_neg (by omega), if_pos h1]
  · rw [if_neg (by omega), if_neg (by omega), if_neg (by omega)]

/-- C6 witness: the middle tier instantiated at 1500 words. -/
theorem C6_witness : 1000 < 1500 ∧ 1500 ≤ 2000 ∧ wordCountBonus 1500 = 0.2 :=
  ⟨by norm_num, by norm_num, (C6_confirmed 1500).2.1 (by norm_num) (by norm_num)⟩

/-- C7: the depth score of any node data lies between 0 and 1. -/
theorem C7_confirmed (d : Attrs) :
    0 ≤ calculate_content_depth d ∧ calculate_content_depth d ≤ 1 := by
  have hb : (0 : ℚ) ≤ wordCountBonus (wordCount (d.content.getD [])) := by
    unfold wordCountBonus
    split_ifs <;> norm_num
  simp only [calculate_content_depth]
  refine ⟨le_min ?_ (by norm_num), min_le_right _ _⟩
  apply add_nonneg
  apply add_nonneg
  apply add_nonneg
  apply add_nonneg
  apply add_nonneg
  · exact hb
  all_goals split_ifs <;> norm_num

/-- C8: degenerate corpora are safe — an empty corpus, a one-document corpus
and a failing vectorization each yield an empty cluster list. -/
theorem C8_confirmed (vec : Vectorizer) (θ : Theme) (g : Graph) :
    (clusterTexts g = [] → identify_semantic_clusters vec θ g = []) ∧
    ((clusterTexts g).length = 1 → identify_semantic_clusters vec θ g = []) ∧
    (vec ((clusterTexts g).map (fun p => p.2)) = .error () →
      identify_semantic_clusters vec θ g = []) :=
  ⟨clusters_empty_of_no_texts vec θ g, clusters_empty_of_one vec θ g,
   clusters_empty_of_vec_err vec θ g⟩

/-- C8 witness: the three degenerate cases instantiated on concrete graphs. -/
theorem C8_witness :
    (clusterTexts gNoText = [] ∧ identify_semantic_clusters vecOne theme0 gNoText = []) ∧
    ((clusterTexts g1doc).length = 1 ∧ identify_semantic_clusters vecOne theme0 g1doc = []) ∧
    (vecFail ((clusterTexts gC2).map (fun p => p.2)) = .error () ∧
      identify_semantic_clusters vecFail theme0 gC2 = []) := by
  have h1 : clusterTexts gNoText = [] := by decide
  have h2 : (clusterTexts g1doc).length = 1 := by decide
  have h3 : vecFail ((clusterTexts gC2).map (fun p => p.2)) = .error () := rfl
  exact ⟨⟨h1, (C8_confirmed vecOne theme0 gNoText).1 h1⟩,
         ⟨h2, (C8_confirmed vecOne theme0 g1doc).2.1 h2⟩,
         ⟨h3, (C8_confirmed vecFail theme0 gC2).2.2 h3⟩⟩

/-- C9: the synthesized taxonomy node id depends only on the hash of the URL —
two evaluations over URLs with equal hash (in particular the same URL twice in
one run) give the same category and tag node ids, and the category and tag
branches reduce the hash by the same modulus. -/
theorem C9_confirmed (h : Str → Int) (u1 u2 : Str) (he : h u1 = h u2) :
    catNodeIdOfUrl h u1 = catNodeIdOfUrl h u2 ∧
    tagNodeIdOfUrl h u1 = tagNodeIdOfUrl h u2 ∧
    synthCatNum h u1 = synthTagNum h u2 := by
  unfold catNodeIdOfUrl tagNodeIdOfUrl synthCatNum synthTagNum
  rw [he]
  exact ⟨rfl, rfl, rfl⟩

/-- C9 witness: the same URL hashed twice with the model hash. -/
theorem C9_witness :
    hash0 "a".data = hash0 "a".data ∧
    catNodeIdOfUrl hash0 "a".data = catNodeIdOfUrl hash0 "a".data :=
  ⟨rfl, (C9_confirmed hash0 "a".data "a".data rfl).1⟩

/-- C10: the builder never reads the media field — bundles equal on posts,
pages, categories and tags build identical graphs. -/
theorem C10_confirmed (site : Str) (h : Str → Int) (b1 b2 : Bundle)
    (h1 : b1.posts = b2.posts) (h2 : b1.pages = b2.pages)
    (h3 : b1.categories = b2.categories) (h4 : b1.tags = b2.tags) :
    build_content_graph site h b1 = build_content_graph site h b2 := by
  unfold build_content_graph
  rw [h1, h2, h3, h4]

/-- C10 witness: two bundles differing only in media build the same graph. -/
theorem C10_witness :
    bundleM1.media ≠ bundleM2.media ∧
    build_content_graph siteC1 hash0 bundleM1 = build_content_graph siteC1 hash0 bundleM2 :=
  ⟨by decide, C10_confirmed siteC1 hash0 bundleM1 bundleM2 rfl rfl rfl rfl⟩
